import Mathlib

/-!
# DatabaseQuery: filter rules, rule combinations and their WHERE clauses

A shallow embedding of `xbmc/dbwrappers/DatabaseQuery.cpp`.

* C++ strings are Lean `String`s (no embedded NUL, so `c_str()` is the identity).
* The pure virtual members of `CDatabaseQueryRule` (the host's field catalog) and its
  overridable hooks `GetOperator` / `GetBooleanQuery` are the fields of `Host`.
* Member functions that mutate `this` or a reference argument return the new value
  next to their `bool` result.
* Loops keep the accumulator of the source (`wholeQuery`, `rule`, `m_parameter`).
-/

namespace DatabaseQuery

/-! ## Declarations of the header -/

/-- Modelled from the spec: the enumeration `SEARCH_OPERATOR` of the missing header
`DatabaseQuery.h`, its 15 operators in the order the spec lists them. -/
inductive SEARCH_OPERATOR where
  | OPERATOR_CONTAINS
  | OPERATOR_DOES_NOT_CONTAIN
  | OPERATOR_EQUALS
  | OPERATOR_DOES_NOT_EQUAL
  | OPERATOR_STARTS_WITH
  | OPERATOR_ENDS_WITH
  | OPERATOR_GREATER_THAN
  | OPERATOR_LESS_THAN
  | OPERATOR_AFTER
  | OPERATOR_BEFORE
  | OPERATOR_IN_THE_LAST
  | OPERATOR_NOT_IN_THE_LAST
  | OPERATOR_TRUE
  | OPERATOR_FALSE
  | OPERATOR_BETWEEN
  deriving DecidableEq, Repr

/-- Modelled from the spec: the enumeration `FIELD_TYPE` of the missing header: plain
text, numeric, date, duration in seconds and text-in-list. -/
inductive FIELD_TYPE where
  | TEXT_FIELD
  | NUMERIC_FIELD
  | DATE_FIELD
  | SECONDS_FIELD
  | TEXTIN_FIELD
  deriving DecidableEq, Repr

/-- Modelled from the spec: the connective of a combination (enumeration of the missing
header). -/
inductive COMBINATION_TYPE where
  | CombinationOr
  | CombinationAnd
  deriving DecidableEq, Repr

open SEARCH_OPERATOR FIELD_TYPE COMBINATION_TYPE

/-- One row of the operator table (`typedef struct { ... } operatorField`). -/
structure operatorField where
  string : String
  op : SEARCH_OPERATOR
  localizedString : Nat
  deriving DecidableEq, Repr

/-- The table `operators[]`. -/
def operators : List operatorField := [
  { string := "contains",       op := OPERATOR_CONTAINS,         localizedString := 21400 },
  { string := "doesnotcontain", op := OPERATOR_DOES_NOT_CONTAIN, localizedString := 21401 },
  { string := "is",             op := OPERATOR_EQUALS,           localizedString := 21402 },
  { string := "isnot",          op := OPERATOR_DOES_NOT_EQUAL,   localizedString := 21403 },
  { string := "startswith",     op := OPERATOR_STARTS_WITH,      localizedString := 21404 },
  { string := "endswith",       op := OPERATOR_ENDS_WITH,        localizedString := 21405 },
  { string := "greaterthan",    op := OPERATOR_GREATER_THAN,     localizedString := 21406 },
  { string := "lessthan",       op := OPERATOR_LESS_THAN,        localizedString := 21407 },
  { string := "after",          op := OPERATOR_AFTER,            localizedString := 21408 },
  { string := "before",         op := OPERATOR_BEFORE,           localizedString := 21409 },
  { string := "inthelast",      op := OPERATOR_IN_THE_LAST,      localizedString := 21410 },
  { string := "notinthelast",   op := OPERATOR_NOT_IN_THE_LAST,  localizedString := 21411 },
  { string := "true",           op := OPERATOR_TRUE,             localizedString := 20122 },
  { string := "false",          op := OPERATOR_FALSE,            localizedString := 20424 },
  { string := "between",        op := OPERATOR_BETWEEN,          localizedString := 21456 } ]

/-- The constant `NUM_OPERATORS = sizeof(operators) / sizeof(operatorField)`. -/
def NUM_OPERATORS : Nat := operators.length

/-- The separator `RULE_VALUE_SEPARATOR`. -/
def RULE_VALUE_SEPARATOR : String := " / "

/-! ## Library primitives the file calls -/

/-- Modelled from the spec: `StringUtils::EqualsNoCase`, the case-insensitive exact
comparison of two strings (ASCII letters are folded to lower case). -/
def EqualsNoCase (s1 s2 : String) : Bool :=
  s1.data.map Char.toLower == s2.data.map Char.toLower

/-- The printf-style expansion shared by `StringUtils::Format` and `PrepareSQL`: `%%`
gives a percent sign, `%s` consumes the next argument and inserts `sub` of it, every
other character is copied. -/
def formatAux (sub : String → String) : List Char → List String → List Char
  | [], _ => []
  | '%' :: '%' :: rest, args => '%' :: formatAux sub rest args
  | '%' :: 's' :: rest, a :: args => (sub a).data ++ formatAux sub rest args
  | c :: rest, args => c :: formatAux sub rest args

/-- Modelled from the spec: `StringUtils::Format`, plain printf substitution. -/
def Format (fmt : String) (args : List String) : String :=
  ⟨formatAux id fmt.data args⟩

/-- Modelled from the spec: the backend `CDatabase`, known to this file only through its
safe substitution primitive; `escape` is what the backend turns a single value into
before it is inserted into a template. -/
structure CDatabase where
  escape : String → String

/-- Modelled from the spec: `CDatabase::PrepareSQL`, the substitution of escaped values
into a printf-style template. -/
def CDatabase.PrepareSQL (db : CDatabase) (fmt : String) (args : List String) : String :=
  ⟨formatAux db.escape fmt.data args⟩

/-- The pieces of a character list between occurrences of `delim`; `cur` is the piece
being read, reversed. -/
def SplitString.go (delim : Char) : List Char → List Char → List String
  | [], cur => [String.mk cur.reverse]
  | c :: cs, cur =>
    if c = delim then String.mk cur.reverse :: SplitString.go delim cs []
    else SplitString.go delim cs (c :: cur)

/-- Modelled from the spec: `StringUtils::SplitString` for a one-character delimiter
(the file only splits on a comma). -/
def SplitString (input : String) (delim : Char) : List String :=
  SplitString.go delim input.data []

/-- Modelled from the spec: `CStdString::Trim`, which removes the white space at both
ends. -/
def Trim (s : String) : String :=
  ⟨((s.data.dropWhile Char.isWhitespace).reverse.dropWhile Char.isWhitespace).reverse⟩

/-! ## The rule -/

/-- The data members of `CDatabaseQueryRule`. -/
structure CDatabaseQueryRule where
  m_field : Int
  m_operator : SEARCH_OPERATOR
  m_parameter : List String
  deriving DecidableEq, Repr

/-- The members of `CDatabaseQueryRule` that the host supplies: the pure virtual field
catalog (`GetField`, `GetFieldType`, both `TranslateField`), the overridable hooks
`GetOperator` (effective operator of a rule in a context) and `GetBooleanQuery`
(rule, negation, context), and `GetAsDBDate`, which stands for
`(CDateTime::GetCurrentDateTime() - span(param)).GetAsDBDate()`, a function of the
parameter once the current time is fixed. -/
structure Host where
  GetField : Int → String → String
  GetFieldType : Int → FIELD_TYPE
  TranslateField : String → Int
  TranslateFieldToString : Int → String
  GetOperator : CDatabaseQueryRule → String → SEARCH_OPERATOR
  GetBooleanQuery : CDatabaseQueryRule → String → String → String
  GetAsDBDate : String → String

/-- Scan of the table by `TranslateOperator(const char *)`. -/
def TranslateOperator.loop (oper : String) : List operatorField → SEARCH_OPERATOR
  | [] => OPERATOR_CONTAINS
  | e :: rest => if EqualsNoCase oper e.string then e.op else TranslateOperator.loop oper rest

/-- The function `CDatabaseQueryRule::TranslateOperator(const char *oper)`. -/
def TranslateOperator (oper : String) : SEARCH_OPERATOR :=
  TranslateOperator.loop oper operators

/-- Scan of the table by `TranslateOperator(SEARCH_OPERATOR)`. -/
def TranslateOperatorToString.loop (oper : SEARCH_OPERATOR) : List operatorField → String
  | [] => "contains"
  | e :: rest => if oper = e.op then e.string else TranslateOperatorToString.loop oper rest

/-- The function `CDatabaseQueryRule::TranslateOperator(SEARCH_OPERATOR oper)`. -/
def TranslateOperatorToString (oper : SEARCH_OPERATOR) : String :=
  TranslateOperatorToString.loop oper operators

/-- The function `CDatabaseQueryRule::GetAvailableOperators`, appending to `operatorList`. -/
def GetAvailableOperators (operatorList : List String) : List String :=
  operators.foldl (fun l e => l ++ [e.string]) operatorList

/-! ## Structured values and markup nodes -/

/-- Modelled from the spec: the structured value `CVariant` of the missing
`utils/Variant.h`: null, scalars, strings, arrays, and objects whose members are kept
as a key/value list with at most one entry per key. -/
inductive CVariant where
  | VariantTypeNull
  | VariantTypeInteger (i : Int)
  | VariantTypeBoolean (b : Bool)
  | VariantTypeString (s : String)
  | VariantTypeArray (a : List CVariant)
  | VariantTypeObject (m : List (String × CVariant))

namespace CVariant

def isNull : CVariant → Bool
  | VariantTypeNull => true
  | _ => false

def isObject : CVariant → Bool
  | VariantTypeObject _ => true
  | _ => false

def isArray : CVariant → Bool
  | VariantTypeArray _ => true
  | _ => false

def isString : CVariant → Bool
  | VariantTypeString _ => true
  | _ => false

/-- The string held by a string value (the file reads `asString` of string values only). -/
def asString : CVariant → String
  | VariantTypeString s => s
  | _ => ""

/-- The value stored under `key` in a member list. -/
def lookup (key : String) : List (String × CVariant) → Option CVariant
  | [] => none
  | (k, v) :: rest => if k = key then some v else lookup key rest

/-- Member list after `map[key] = v`. -/
def assign (key : String) (v : CVariant) : List (String × CVariant) → List (String × CVariant)
  | [] => [(key, v)]
  | (k, x) :: rest => if k = key then (key, v) :: rest else (k, x) :: assign key v rest

/-- The test `obj.isMember(key)`. -/
def isMember (obj : CVariant) (key : String) : Bool :=
  match obj with
  | VariantTypeObject m => (lookup key m).isSome
  | _ => false

/-- The read `obj[key]` of a const value: the member, or the null value. -/
def get (obj : CVariant) (key : String) : CVariant :=
  match obj with
  | VariantTypeObject m => (lookup key m).getD VariantTypeNull
  | _ => VariantTypeNull

/-- The write `obj[key] = v`: a null value becomes an object first; a value that is
neither null nor an object has no member to write and stays as it is. -/
def set (obj : CVariant) (key : String) (v : CVariant) : CVariant :=
  match obj with
  | VariantTypeNull => VariantTypeObject [(key, v)]
  | VariantTypeObject m => VariantTypeObject (assign key v m)
  | other => other

/-- The call `arr.push_back(v)`: a null value becomes an array first. -/
def push_back (arr : CVariant) (v : CVariant) : CVariant :=
  match arr with
  | VariantTypeNull => VariantTypeArray [v]
  | VariantTypeArray a => VariantTypeArray (a ++ [v])
  | other => other

/-- The range `begin_array() .. end_array()`, empty for a value that is not an array. -/
def elements : CVariant → List CVariant
  | VariantTypeArray a => a
  | _ => []

end CVariant

/-- Modelled from the spec: the node kinds of the markup library (`TiXmlNode::NodeType`). -/
inductive NodeType where
  | TINYXML_DOCUMENT
  | TINYXML_ELEMENT
  | TINYXML_COMMENT
  | TINYXML_UNKNOWN
  | TINYXML_TEXT
  | TINYXML_DECLARATION
  deriving DecidableEq, Repr

/-- Modelled from the spec: a markup node `TiXmlNode`: its kind, its value (the tag of an
element, the characters of a text node), the attributes of an element and its children
in document order. -/
inductive TiXmlNode where
  | mk (type : NodeType) (value : String) (attributes : List (String × String))
      (children : List TiXmlNode)

namespace TiXmlNode

/-- The accessor `Type()`. -/
def type : TiXmlNode → NodeType
  | mk t _ _ _ => t

def ValueStr : TiXmlNode → String
  | mk _ v _ _ => v

def attributes : TiXmlNode → List (String × String)
  | mk _ _ a _ => a

def children : TiXmlNode → List TiXmlNode
  | mk _ _ _ c => c

/-- The constructor `TiXmlElement(name)`. -/
def TiXmlElement (name : String) : TiXmlNode :=
  mk NodeType.TINYXML_ELEMENT name [] []

/-- The constructor `TiXmlText(text)`. -/
def TiXmlText (text : String) : TiXmlNode :=
  mk NodeType.TINYXML_TEXT text [] []

/-- Attribute list after `SetAttribute(name, value)`. -/
def setAttr (name value : String) : List (String × String) → List (String × String)
  | [] => [(name, value)]
  | (k, x) :: rest => if k = name then (name, value) :: rest else (k, x) :: setAttr name value rest

/-- The call `element.SetAttribute(name, value)`. -/
def SetAttribute (node : TiXmlNode) (name value : String) : TiXmlNode :=
  match node with
  | mk t v a c => mk t v (setAttr name value a) c

/-- The call `node.InsertEndChild(child)`: a copy of `child` becomes the last child. -/
def InsertEndChild (node child : TiXmlNode) : TiXmlNode :=
  match node with
  | mk t v a c => mk t v a (c ++ [child])

end TiXmlNode

/-! ## Loading and saving a rule -/

namespace CDatabaseQueryRule

open CVariant TiXmlNode

/-- The constructor `CDatabaseQueryRule::CDatabaseQueryRule()`. -/
def new : CDatabaseQueryRule :=
  { m_field := 0, m_operator := OPERATOR_CONTAINS, m_parameter := [] }

/-- The loop of `Load(const CVariant &)` over the elements of an array `value`. -/
def Load.loop : List CVariant → List String → List String
  | [], m_parameter => m_parameter
  | val :: rest, m_parameter =>
    if val.isString && val.asString ≠ "" then Load.loop rest (m_parameter ++ [val.asString])
    else Load.loop rest m_parameter

/-- The function `CDatabaseQueryRule::Load(const CVariant &obj)`, run on the rule `r`;
returns the result and the rule afterwards. -/
def Load (h : Host) (r : CDatabaseQueryRule) (obj : CVariant) : Bool × CDatabaseQueryRule :=
  if !obj.isObject ||
      !obj.isMember "field" || !(obj.get "field").isString ||
      !obj.isMember "operator" || !(obj.get "operator").isString then
    (false, r)
  else
    let r := { r with m_field := h.TranslateField (obj.get "field").asString }
    let r := { r with m_operator := TranslateOperator (obj.get "operator").asString }
    if r.m_operator = OPERATOR_TRUE ∨ r.m_operator = OPERATOR_FALSE then
      (true, r)
    else if !obj.isMember "value" ||
        (!(obj.get "value").isString && !(obj.get "value").isArray) then
      (false, r)
    else
      let value := obj.get "value"
      if value.isString && value.asString ≠ "" then
        (true, { r with m_parameter := r.m_parameter ++ [value.asString] })
      else if value.isArray then
        (true, { r with m_parameter := Load.loop value.elements r.m_parameter })
      else
        (false, r)

/-- The loop of `Save(CVariant &)`: one `obj["value"].push_back(*it)` per parameter. -/
def Save.loop : List String → CVariant → CVariant
  | [], obj => obj
  | it :: rest, obj =>
    Save.loop rest (obj.set "value" ((obj.get "value").push_back (VariantTypeString it)))

/-- The function `CDatabaseQueryRule::Save(CVariant &obj)`; returns the result and `obj`
afterwards. -/
def Save (h : Host) (r : CDatabaseQueryRule) (obj : CVariant) : Bool × CVariant :=
  if obj.isNull ∨ (r.m_parameter = [] ∧ r.m_operator ≠ OPERATOR_TRUE ∧
      r.m_operator ≠ OPERATOR_FALSE) then
    (false, obj)
  else
    let obj := obj.set "field" (VariantTypeString (h.TranslateFieldToString r.m_field))
    let obj := obj.set "operator" (VariantTypeString (TranslateOperatorToString r.m_operator))
    let obj := obj.set "value" (VariantTypeArray [])
    (true, Save.loop r.m_parameter obj)

/-- The loop of `Save(TiXmlNode *)`: one `<value>` child holding a text node per
parameter. -/
def SaveXml.loop : List String → TiXmlNode → TiXmlNode
  | [], rule => rule
  | it :: rest, rule =>
    let value := TiXmlElement "value"
    let text := TiXmlText it
    let value := value.InsertEndChild text
    SaveXml.loop rest (rule.InsertEndChild value)

/-- The function `CDatabaseQueryRule::Save(TiXmlNode *parent)`; `none` is the NULL
pointer; returns the result and the node `parent` points to afterwards. -/
def SaveXml (h : Host) (r : CDatabaseQueryRule) (parent : Option TiXmlNode) :
    Bool × Option TiXmlNode :=
  match parent with
  | none => (false, none)
  | some p =>
    if r.m_parameter = [] ∧ r.m_operator ≠ OPERATOR_TRUE ∧ r.m_operator ≠ OPERATOR_FALSE then
      (false, some p)
    else
      let rule := TiXmlElement "rule"
      let rule := rule.SetAttribute "field" (h.TranslateFieldToString r.m_field)
      let rule := rule.SetAttribute "operator" (TranslateOperatorToString r.m_operator)
      let rule := SaveXml.loop r.m_parameter rule
      (true, some (p.InsertEndChild rule))

/-! ## Compiling a rule -/

/-- The loop of `FormatParameter` over the pieces of a text-in-list parameter. -/
def FormatParameter.loop (db : CDatabase) : List String → String → String
  | [], parameter => parameter
  | itIn :: rest, parameter =>
    let parameter := if parameter ≠ "" then parameter ++ "," else parameter
    FormatParameter.loop db rest (parameter ++ db.PrepareSQL "'%s'" [Trim itIn])

/-- The function `CDatabaseQueryRule::FormatParameter`. -/
def FormatParameter (h : Host) (r : CDatabaseQueryRule) (operatorString param : String)
    (db : CDatabase) (_strType : String) : String :=
  let parameter :=
    if h.GetFieldType r.m_field = TEXTIN_FIELD then
      " IN (" ++ FormatParameter.loop db (SplitString param ',') "" ++ ")"
    else
      db.PrepareSQL operatorString [param]
  if h.GetFieldType r.m_field = DATE_FIELD then
    if r.m_operator = OPERATOR_IN_THE_LAST ∨ r.m_operator = OPERATOR_NOT_IN_THE_LAST then
      db.PrepareSQL operatorString [h.GetAsDBDate param]
    else parameter
  else parameter

/-- The function `CDatabaseQueryRule::GetOperatorString`. -/
def GetOperatorString (h : Host) (r : CDatabaseQueryRule) (op : SEARCH_OPERATOR) : String :=
  if h.GetFieldType r.m_field ≠ TEXTIN_FIELD then
    match op with
    | OPERATOR_CONTAINS => " LIKE '%%%s%%'"
    | OPERATOR_DOES_NOT_CONTAIN => " LIKE '%%%s%%'"
    | OPERATOR_EQUALS =>
      if h.GetFieldType r.m_field = NUMERIC_FIELD ∨ h.GetFieldType r.m_field = SECONDS_FIELD then
        " = %s"
      else
        " LIKE '%s'"
    | OPERATOR_DOES_NOT_EQUAL =>
      if h.GetFieldType r.m_field = NUMERIC_FIELD ∨ h.GetFieldType r.m_field = SECONDS_FIELD then
        " != %s"
      else
        " LIKE '%s'"
    | OPERATOR_STARTS_WITH => " LIKE '%s%%'"
    | OPERATOR_ENDS_WITH => " LIKE '%%%s'"
    | OPERATOR_AFTER | OPERATOR_GREATER_THAN | OPERATOR_IN_THE_LAST =>
      if h.GetFieldType r.m_field = NUMERIC_FIELD ∨ h.GetFieldType r.m_field = SECONDS_FIELD then
        " > " ++ "%s"
      else
        " > " ++ "'%s'"
    | OPERATOR_BEFORE | OPERATOR_LESS_THAN | OPERATOR_NOT_IN_THE_LAST =>
      if h.GetFieldType r.m_field = NUMERIC_FIELD ∨ h.GetFieldType r.m_field = SECONDS_FIELD then
        " < " ++ "%s"
      else
        " < " ++ "'%s'"
    | OPERATOR_TRUE => " = 1"
    | OPERATOR_FALSE => " = 0"
    | _ => ""
  else ""

/-- The function `CDatabaseQueryRule::FormatWhereClause`. The comparison
`query.Equals(negate + parameter)` is modelled as equality of the two strings; a
comparison that ignores case gives the same result here, because `query` is either
empty or ends with `negate + parameter`. -/
def FormatWhereClause (h : Host) (r : CDatabaseQueryRule) (negate oper param : String)
    (db : CDatabase) (strType : String) : String :=
  let parameter := FormatParameter h r oper param db strType
  let query :=
    if r.m_field ≠ 0 then
      let fmt :=
        if h.GetFieldType r.m_field = NUMERIC_FIELD then "CAST(%s as DECIMAL(5,1))"
        else if h.GetFieldType r.m_field = SECONDS_FIELD then "CAST(%s as INTEGER)"
        else "%s"
      Format fmt [h.GetField r.m_field strType] ++ (negate ++ parameter)
    else ""
  if query = negate ++ parameter then "1" else query

/-- The negation flag `negate` that `GetWhereClause` computes from the effective
operator `op`. -/
def GetWhereClause.negate (h : Host) (r : CDatabaseQueryRule) (op : SEARCH_OPERATOR) : String :=
  if op = OPERATOR_DOES_NOT_CONTAIN ∨ op = OPERATOR_FALSE ∨
      (op = OPERATOR_DOES_NOT_EQUAL ∧ h.GetFieldType r.m_field ≠ NUMERIC_FIELD ∧
        h.GetFieldType r.m_field ≠ SECONDS_FIELD) then
    " NOT"
  else ""

/-- The loop of `GetWhereClause` over the parameters; `f` is the call of
`FormatWhereClause` on one parameter. -/
def GetWhereClause.loop (f : String → String) : List String → String → String
  | [], wholeQuery => wholeQuery
  | it :: rest, wholeQuery =>
    let query := "(" ++ f it ++ ")"
    let query := if rest ≠ [] then query ++ " OR " else query
    GetWhereClause.loop f rest (wholeQuery ++ query)

/-- The function `CDatabaseQueryRule::GetWhereClause`. -/
def GetWhereClause (h : Host) (r : CDatabaseQueryRule) (db : CDatabase) (strType : String) :
    String :=
  let op := h.GetOperator r strType
  let operatorString := GetOperatorString h r op
  let negate := GetWhereClause.negate h r op
  if r.m_operator = OPERATOR_FALSE ∨ r.m_operator = OPERATOR_TRUE then
    h.GetBooleanQuery r negate strType
  else if op = OPERATOR_BETWEEN then
    match r.m_parameter with
    | [p0, p1] =>
      let fieldType := h.GetFieldType r.m_field
      if fieldType = NUMERIC_FIELD then
        db.PrepareSQL "CAST(%s as DECIMAL(5,1)) BETWEEN %s AND %s"
          [h.GetField r.m_field strType, p0, p1]
      else if fieldType = SECONDS_FIELD then
        db.PrepareSQL "CAST(%s as INTEGER) BETWEEN %s AND %s"
          [h.GetField r.m_field strType, p0, p1]
      else
        db.PrepareSQL "%s BETWEEN '%s' AND '%s'" [h.GetField r.m_field strType, p0, p1]
    | _ => ""
  else
    GetWhereClause.loop (fun it => FormatWhereClause h r negate operatorString it db strType)
      r.m_parameter ""

end CDatabaseQueryRule

/-! ## The combination -/

/-- The data members of `CDatabaseQueryRuleCombination`: the connective, the child
combinations and the child rules. -/
inductive CDatabaseQueryRuleCombination where
  | mk (m_type : COMBINATION_TYPE) (m_combinations : List CDatabaseQueryRuleCombination)
      (m_rules : List CDatabaseQueryRule)

namespace CDatabaseQueryRuleCombination

def m_type : CDatabaseQueryRuleCombination → COMBINATION_TYPE
  | mk t _ _ => t

def m_combinations : CDatabaseQueryRuleCombination → List CDatabaseQueryRuleCombination
  | mk _ c _ => c

def m_rules : CDatabaseQueryRuleCombination → List CDatabaseQueryRule
  | mk _ _ r => r

/-- The constructor `CDatabaseQueryRuleCombination()`. -/
def new : CDatabaseQueryRuleCombination :=
  mk CombinationAnd [] []

/-- The function `CDatabaseQueryRuleCombination::clear`. -/
def clear (_c : CDatabaseQueryRuleCombination) : CDatabaseQueryRuleCombination :=
  mk CombinationAnd [] []

/-- The second loop of `GetWhereClause`, over the child rules. -/
def GetWhereClause.rules (h : Host) (db : CDatabase) (strType : String)
    (m_type : COMBINATION_TYPE) : List CDatabaseQueryRule → String → String
  | [], rule => rule
  | it :: rest, rule =>
    let rule := if rule ≠ "" then
        rule ++ (if m_type = CombinationAnd then " AND " else " OR ")
      else rule
    let rule := rule ++ "("
    let currentRule := CDatabaseQueryRule.GetWhereClause h it db strType
    let currentRule := if currentRule = "" then
        (if m_type = CombinationAnd then "'1'" else "'0'")
      else currentRule
    let rule := rule ++ currentRule
    let rule := rule ++ ")"
    GetWhereClause.rules h db strType m_type rest rule

mutual
/-- The function `CDatabaseQueryRuleCombination::GetWhereClause`. -/
def GetWhereClause (h : Host) (db : CDatabase) (strType : String) :
    CDatabaseQueryRuleCombination → String
  | mk m_type m_combinations m_rules =>
    let rule := GetWhereClause.combinations h db strType m_type m_combinations true ""
    GetWhereClause.rules h db strType m_type m_rules rule
/-- The first loop of `GetWhereClause`, over the child combinations; `atBegin` is
`it == m_combinations.begin()`. -/
def GetWhereClause.combinations (h : Host) (db : CDatabase) (strType : String)
    (m_type : COMBINATION_TYPE) : List CDatabaseQueryRuleCombination → Bool → String → String
  | [], _, rule => rule
  | it :: rest, atBegin, rule =>
    let rule := if !atBegin then
        rule ++ (if m_type = CombinationAnd then " AND " else " OR ")
      else rule
    let rule := rule ++ ("(" ++ GetWhereClause h db strType it ++ ")")
    GetWhereClause.combinations h db strType m_type rest false rule
end

/-- The loop of `Save(TiXmlNode *)` over the child rules; the result of each
`(*it)->Save(parent)` is dropped. -/
def SaveXml.loop (h : Host) : List CDatabaseQueryRule → Option TiXmlNode → Option TiXmlNode
  | [], parent => parent
  | it :: rest, parent => SaveXml.loop h rest (CDatabaseQueryRule.SaveXml h it parent).2

/-- The function `CDatabaseQueryRuleCombination::Save(TiXmlNode *parent)`; returns the
result and the node `parent` points to afterwards. -/
def SaveXml (h : Host) (c : CDatabaseQueryRuleCombination) (parent : Option TiXmlNode) :
    Bool × Option TiXmlNode :=
  (true, SaveXml.loop h c.m_rules parent)

/-- The function `CDatabaseQueryRuleCombination::TranslateCombinationType`. -/
def TranslateCombinationType (c : CDatabaseQueryRuleCombination) : String :=
  if c.m_type = CombinationAnd then "and" else "or"

mutual
/-- Follows the spec's words ("the in-order list of all leaf rules in the tree"): the
rules of the child combinations, in order, followed by the node's own rules; compared
with what `SaveXml` writes. -/
def leafRules : CDatabaseQueryRuleCombination → List CDatabaseQueryRule
  | mk _ m_combinations m_rules => leafRules.list m_combinations ++ m_rules
/-- The leaf rules of a list of combinations, in order. -/
def leafRules.list : List CDatabaseQueryRuleCombination → List CDatabaseQueryRule
  | [] => []
  | c :: rest => leafRules c ++ leafRules.list rest
end

end CDatabaseQueryRuleCombination

/-! ## Loading a rule from markup -/

namespace TiXmlNode

/-- The value of `element->Attribute(name)`; `none` is the NULL pointer. -/
def Attribute (name : String) : List (String × String) → Option String
  | [] => none
  | (k, x) :: rest => if k = name then some x else Attribute name rest

/-- The nodes visited by `FirstChild("value")` and then `NextSibling("value")`: the
children whose value is `name`, in document order. -/
def childrenNamed (node : TiXmlNode) (name : String) : List TiXmlNode :=
  node.children.filter (fun n => n.ValueStr = name)

end TiXmlNode

namespace CDatabaseQueryRule

open TiXmlNode

/-- The conversion both branches of `Load(const TiXmlNode *, ...)` apply to the text they
read: nothing for an empty `encoding`, else `g_charsetConverter.ToUtf8`, the external
converter, here the parameter `ToUtf8` (encoding, source). -/
def LoadXml.utf8Parameter (ToUtf8 : String → String → String) (encoding : String)
    (value : String) : String :=
  if encoding = "" then value else ToUtf8 encoding value

/-- The loop of `Load(const TiXmlNode *, ...)` over the children named `value`. -/
def LoadXml.loop (ToUtf8 : String → String → String) (encoding : String) :
    List TiXmlNode → List String → List String
  | [], m_parameter => m_parameter
  | valueNode :: rest, m_parameter =>
    match valueNode.children.head? with
    | some value =>
      if value.type = NodeType.TINYXML_TEXT then
        let utf8Parameter := LoadXml.utf8Parameter ToUtf8 encoding value.ValueStr
        if utf8Parameter ≠ "" then LoadXml.loop ToUtf8 encoding rest (m_parameter ++ [utf8Parameter])
        else LoadXml.loop ToUtf8 encoding rest m_parameter
      else LoadXml.loop ToUtf8 encoding rest m_parameter
    | none => LoadXml.loop ToUtf8 encoding rest m_parameter

/-- The function `CDatabaseQueryRule::Load(const TiXmlNode *node, const std::string
&encoding)`, run on the rule `r`; `none` is the NULL pointer; returns the result and the
rule afterwards. -/
def LoadXml (h : Host) (ToUtf8 : String → String → String) (r : CDatabaseQueryRule)
    (node : Option TiXmlNode) (encoding : String) : Bool × CDatabaseQueryRule :=
  match node with
  | none => (false, r)
  | some element =>
    if element.type ≠ NodeType.TINYXML_ELEMENT then (false, r)
    else
      match Attribute "field" element.attributes, Attribute "operator" element.attributes with
      | some fieldAttr, some oper =>
        let r := { r with m_field := h.TranslateField fieldAttr }
        let r := { r with m_operator := TranslateOperator oper }
        if r.m_operator = OPERATOR_TRUE ∨ r.m_operator = OPERATOR_FALSE then (true, r)
        else
          match element.children.head? with
          | none => (false, r)
          | some parameter =>
            if parameter.type = NodeType.TINYXML_TEXT then
              let utf8Parameter := LoadXml.utf8Parameter ToUtf8 encoding parameter.ValueStr
              if utf8Parameter ≠ "" then
                (true, { r with m_parameter := r.m_parameter ++ [utf8Parameter] })
              else (true, r)
            else if parameter.type = NodeType.TINYXML_ELEMENT then
              let m_parameter :=
                LoadXml.loop ToUtf8 encoding (element.childrenNamed "value") r.m_parameter
              (true, { r with m_parameter := m_parameter })
            else (false, r)
      | _, _ => (false, r)

end CDatabaseQueryRule

/-! ## Loading and saving a combination as a structured value -/

/-- Modelled from the spec: the creation factory `IDatabaseQueryRuleFactory`; each member
is the object the call returns, `none` for a NULL pointer. -/
structure IDatabaseQueryRuleFactory where
  CreateRule : Option CDatabaseQueryRule
  CreateCombination : Option CDatabaseQueryRuleCombination

namespace CDatabaseQueryRuleCombination

open CVariant

mutual
/-- The function `CDatabaseQueryRuleCombination::Load(const CVariant &obj, factory)`, run
on the combination `c`; returns the result and the combination afterwards. An object is
handled by `Load.member`, first for the member "and", then for the member "or". -/
def Load (h : Host) (factory : IDatabaseQueryRuleFactory) :
    CVariant → CDatabaseQueryRuleCombination → Bool × CDatabaseQueryRuleCombination
  | VariantTypeObject m, c =>
    match Load.member h factory "and" m (mk CombinationAnd c.m_combinations c.m_rules) with
    | some c1 => (true, c1)
    | none =>
      match Load.member h factory "or" m (mk CombinationOr c.m_combinations c.m_rules) with
      | some c1 => (true, c1)
      | none => (false, c)
  | VariantTypeArray a, c => (true, Load.loop h factory a c)
  | _, c => (false, c)
/-- The test `obj.isMember(key) && obj[key].isArray()` on the members of `obj`, and, when
it holds, the loop over `child = obj[key]` run on `c` (whose `m_type` the caller has
set); `none` when the test fails. -/
def Load.member (h : Host) (factory : IDatabaseQueryRuleFactory) (key : String) :
    List (String × CVariant) → CDatabaseQueryRuleCombination →
      Option CDatabaseQueryRuleCombination
  | [], _ => none
  | (k, v) :: rest, c =>
    if k = key then
      match v with
      | VariantTypeArray a => some (Load.loop h factory a c)
      | _ => none
    else Load.member h factory key rest c
/-- The loop of `Load` over the elements of `child`. -/
def Load.loop (h : Host) (factory : IDatabaseQueryRuleFactory) :
    List CVariant → CDatabaseQueryRuleCombination → CDatabaseQueryRuleCombination
  | [], c => c
  | it :: rest, c =>
    if !it.isObject then Load.loop h factory rest c
    else if it.isMember "and" || it.isMember "or" then
      match factory.CreateCombination with
      | some combo =>
        let res := Load h factory it combo
        if res.1 then
          Load.loop h factory rest (mk c.m_type (c.m_combinations ++ [res.2]) c.m_rules)
        else Load.loop h factory rest c
      | none => Load.loop h factory rest c
    else
      match factory.CreateRule with
      | some rule =>
        let res := CDatabaseQueryRule.Load h rule it
        if res.1 then
          Load.loop h factory rest (mk c.m_type c.m_combinations (c.m_rules ++ [res.2]))
        else Load.loop h factory rest c
      | none => Load.loop h factory rest c
end

/-- The second loop of `Save(CVariant &)`, over the child rules. -/
def Save.rules (h : Host) : List CDatabaseQueryRule → CVariant → CVariant
  | [], comboArray => comboArray
  | rule :: rest, comboArray =>
    let res := CDatabaseQueryRule.Save h rule (VariantTypeObject [])
    if res.1 then Save.rules h rest (comboArray.push_back res.2)
    else Save.rules h rest comboArray

mutual
/-- The function `CDatabaseQueryRuleCombination::Save(CVariant &obj)`; returns the result
and `obj` afterwards. -/
def Save (h : Host) : CDatabaseQueryRuleCombination → CVariant → Bool × CVariant
  | mk m_type m_combinations m_rules, obj =>
    if !obj.isObject || (m_combinations.isEmpty && m_rules.isEmpty) then (false, obj)
    else
      let comboArray := VariantTypeArray []
      let comboArray := Save.combinations h m_combinations comboArray
      let comboArray := Save.rules h m_rules comboArray
      (true, obj.set (if m_type = CombinationAnd then "and" else "or") comboArray)
/-- The first loop of `Save(CVariant &)`, over the child combinations. -/
def Save.combinations (h : Host) : List CDatabaseQueryRuleCombination → CVariant → CVariant
  | [], comboArray => comboArray
  | combo :: rest, comboArray =>
    let res := Save h combo (VariantTypeObject [])
    if res.1 then Save.combinations h rest (comboArray.push_back res.2)
    else Save.combinations h rest comboArray
end

end CDatabaseQueryRuleCombination

/-- The parameter that a child named `value` contributes in `LoadXml.loop`: the converted
text of its first child when that is a text node and the text is not empty. -/
def CDatabaseQueryRule.LoadXml.valueParameter (ToUtf8 : String → String → String)
    (encoding : String) (valueNode : TiXmlNode) : Option String :=
  match valueNode.children.head? with
  | some value =>
    if value.type = NodeType.TINYXML_TEXT ∧
        LoadXml.utf8Parameter ToUtf8 encoding value.ValueStr ≠ "" then
      some (LoadXml.utf8Parameter ToUtf8 encoding value.ValueStr)
    else none
  | none => none

/-! ## The trees kept by the structured encoding -/

/-- The rules that the structured encoding keeps: the host translates the token of the
field back to the field, and the rule either has the operator TRUE or FALSE and no
parameter, or another operator and a non-empty list of non-empty parameters. -/
def CDatabaseQueryRule.RoundTrips (h : Host) (r : CDatabaseQueryRule) : Prop :=
  h.TranslateField (h.TranslateFieldToString r.m_field) = r.m_field ∧
  (((r.m_operator = OPERATOR_TRUE ∨ r.m_operator = OPERATOR_FALSE) ∧ r.m_parameter = []) ∨
   (r.m_operator ≠ OPERATOR_TRUE ∧ r.m_operator ≠ OPERATOR_FALSE ∧ r.m_parameter ≠ [] ∧
      ∀ p ∈ r.m_parameter, p ≠ ""))

mutual
/-- The trees that the structured encoding keeps: every combination of the tree, the root
included, has at least one child, and every rule of the tree satisfies
`CDatabaseQueryRule.RoundTrips`. -/
def CDatabaseQueryRuleCombination.RoundTrips (h : Host) : CDatabaseQueryRuleCombination → Prop
  | .mk _ m_combinations m_rules =>
    (m_combinations ≠ [] ∨ m_rules ≠ []) ∧
    CDatabaseQueryRuleCombination.RoundTrips.list h m_combinations ∧
    ∀ r ∈ m_rules, CDatabaseQueryRule.RoundTrips h r
/-- The condition `RoundTrips` on every combination of a list. -/
def CDatabaseQueryRuleCombination.RoundTrips.list (h : Host) :
    List CDatabaseQueryRuleCombination → Prop
  | [] => True
  | c :: rest =>
    CDatabaseQueryRuleCombination.RoundTrips h c ∧
    CDatabaseQueryRuleCombination.RoundTrips.list h rest
end

/-- A factory that returns a freshly constructed rule and a freshly constructed
combination. -/
def exampleFactory : IDatabaseQueryRuleFactory where
  CreateRule := some CDatabaseQueryRule.new
  CreateCombination := some CDatabaseQueryRuleCombination.new

/-- A converter to UTF-8 that leaves its input as it is. -/
def exampleToUtf8 : String → String → String :=
  fun _ value => value

/-! ## A small host, used at concrete inputs -/

/-- A field catalog with four fields: 1 is the plain-text field `genre` (expression
`genre.strGenre`), 2 the numeric field `rating` (expression `rating`), 3 the plain-text
field `title` and 4 the numeric field `year`, both without an expression in the context
at hand (`GetField` returns the empty string, as it does for the field none, 0). The
hooks keep their defaults: the effective operator is the stored one and the boolean
query is empty. -/
def exampleHost : Host where
  GetField := fun f _ => if f = 1 then "genre.strGenre" else if f = 2 then "rating" else ""
  GetFieldType := fun f => if f = 2 ∨ f = 4 then NUMERIC_FIELD else TEXT_FIELD
  TranslateField := fun s =>
    if s = "genre" then 1 else if s = "rating" then 2 else if s = "title" then 3
    else if s = "year" then 4 else 0
  TranslateFieldToString := fun f =>
    if f = 1 then "genre" else if f = 2 then "rating" else if f = 3 then "title"
    else if f = 4 then "year" else "none"
  GetOperator := fun r _ => r.m_operator
  GetBooleanQuery := fun _ _ _ => ""
  GetAsDBDate := fun _ => "2013-01-01"

/-- The host `exampleHost` with a `GetOperator` hook that makes `op` the effective
operator of every rule. -/
def remapHost (op : SEARCH_OPERATOR) : Host :=
  { exampleHost with GetOperator := fun _ _ => op }

/-- A backend whose substitution inserts values unchanged. -/
def exampleDb : CDatabase where
  escape := id

/-- Doubling of every single quote (character 39) of a character list. -/
def quotingDb.double : List Char → List Char
  | [] => []
  | c :: rest => if c = Char.ofNat 39 then c :: c :: quotingDb.double rest
    else c :: quotingDb.double rest

/-- A backend whose substitution doubles every single quote of the value. -/
def quotingDb : CDatabase where
  escape := fun s => ⟨quotingDb.double s.data⟩

/-! ## Lemmas on strings and formatting -/
open CDatabaseQueryRule CVariant TiXmlNode

theorem string_append_left_eq_self {a b : String} (h : a ++ b = b) : a = "" := by
  have hd := congrArg String.data h
  simp only [String.data_append, List.append_left_eq_self] at hd
  exact String.ext hd

theorem string_append_ne_empty_right (a : String) {b : String} (hb : b ≠ "") : a ++ b ≠ "" := by
  intro h
  have hd := congrArg String.data h
  simp only [String.data_append] at hd
  have : b.data = [] := (List.append_eq_nil.mp hd).2
  exact hb (String.ext this)

theorem intercalate_go_append (acc sep : String) (xs ys : List String) :
    String.intercalate.go acc sep (xs ++ ys)
      = String.intercalate.go (String.intercalate.go acc sep xs) sep ys := by
  induction xs generalizing acc with
  | nil => simp [String.intercalate.go]
  | cons x xs ih => simp [String.intercalate.go, ih]

theorem GetWhereClause_loop_cons (f : String → String) (p : String) (ps : List String)
    (acc : String) :
    GetWhereClause.loop f (p :: ps) acc
      = String.intercalate.go (acc ++ ("(" ++ f p ++ ")")) " OR "
          (ps.map (fun q => "(" ++ f q ++ ")")) := by
  induction ps generalizing p acc with
  | nil => simp [GetWhereClause.loop, String.intercalate.go]
  | cons q qs ih =>
    rw [GetWhereClause.loop]
    simp only [ne_eq, reduceCtorEq, not_false_eq_true, if_true]
    rw [ih]
    simp [String.intercalate.go, String.append_assoc]

theorem GetWhereClause_loop_eq (f : String → String) (ps : List String) :
    GetWhereClause.loop f ps ""
      = String.intercalate " OR " (ps.map (fun q => "(" ++ f q ++ ")")) := by
  cases ps with
  | nil => simp [GetWhereClause.loop, String.intercalate]
  | cons p ps => simp [GetWhereClause_loop_cons, String.intercalate]

theorem Format_text (e : String) : Format "%s" [e] = e := by
  apply String.ext
  simp [Format, formatAux]
theorem Format_decimal (e : String) :
    Format "CAST(%s as DECIMAL(5,1))" [e] = "CAST(" ++ e ++ " as DECIMAL(5,1))" := rfl
theorem Format_integer (e : String) :
    Format "CAST(%s as INTEGER)" [e] = "CAST(" ++ e ++ " as INTEGER)" := rfl

theorem FormatWhereClause_of_expr (h : Host) (r : CDatabaseQueryRule)
    (negate oper param : String) (db : CDatabase) (strType : String)
    (hf : r.m_field ≠ 0) (he : h.GetField r.m_field strType ≠ "") :
    FormatWhereClause h r negate oper param db strType =
      (if h.GetFieldType r.m_field = NUMERIC_FIELD then
          "CAST(" ++ h.GetField r.m_field strType ++ " as DECIMAL(5,1))"
        else if h.GetFieldType r.m_field = SECONDS_FIELD then
          "CAST(" ++ h.GetField r.m_field strType ++ " as INTEGER)"
        else h.GetField r.m_field strType)
      ++ (negate ++ FormatParameter h r oper param db strType) := by
  unfold FormatWhereClause
  simp only [ne_eq, hf, not_false_eq_true, if_true]
  have hne : Format (if h.GetFieldType r.m_field = NUMERIC_FIELD then "CAST(%s as DECIMAL(5,1))"
        else if h.GetFieldType r.m_field = SECONDS_FIELD then "CAST(%s as INTEGER)"
        else "%s") [h.GetField r.m_field strType] ≠ "" := by
    split
    · rw [Format_decimal]; intro hc
      exact string_append_ne_empty_right _ (by decide) hc
    · split
      · rw [Format_integer]; intro hc
        exact string_append_ne_empty_right _ (by decide) hc
      · rw [Format_text]; exact he
  rw [if_neg (fun hc => hne (string_append_left_eq_self hc))]
  split
  · rw [Format_decimal]
  · split
    · rw [Format_integer]
    · rw [Format_text]

theorem FormatWhereClause_of_numeric (h : Host) (r : CDatabaseQueryRule)
    (negate oper param : String) (db : CDatabase) (strType : String)
    (hf : r.m_field ≠ 0) (hft : h.GetFieldType r.m_field = NUMERIC_FIELD) :
    FormatWhereClause h r negate oper param db strType =
      "CAST(" ++ h.GetField r.m_field strType ++ " as DECIMAL(5,1))"
        ++ (negate ++ FormatParameter h r oper param db strType) := by
  unfold FormatWhereClause
  simp only [ne_eq, hf, not_false_eq_true, if_true, hft, Format_decimal]
  rw [if_neg]
  intro hc
  exact string_append_ne_empty_right _ (by decide) (string_append_left_eq_self hc)

theorem string_append_ne_empty_left {a : String} (b : String) (ha : a ≠ "") : a ++ b ≠ "" := by
  intro h
  have hd := congrArg String.data h
  simp only [String.data_append] at hd
  have : a.data = [] := (List.append_eq_nil.mp hd).1
  exact ha (String.ext this)

theorem intercalate_go_ne_empty (acc sep : String) (xs : List String) (ha : acc ≠ "") :
    String.intercalate.go acc sep xs ≠ "" := by
  induction xs generalizing acc with
  | nil => simpa [String.intercalate.go] using ha
  | cons x xs ih =>
    rw [String.intercalate.go]
    exact ih _ (string_append_ne_empty_left _ (string_append_ne_empty_left _ ha))

/-! ## Lemmas on the rule -/

theorem translateOperator_roundtrip (op : SEARCH_OPERATOR) :
    TranslateOperator (TranslateOperatorToString op) = op := by
  cases op <;> decide

theorem Save_loop_value (ps : List String) (f o : CVariant) (acc : List CVariant) :
    Save.loop ps (VariantTypeObject [("field", f), ("operator", o), ("value", VariantTypeArray acc)])
      = VariantTypeObject [("field", f), ("operator", o),
          ("value", VariantTypeArray (acc ++ ps.map VariantTypeString))] := by
  induction ps generalizing acc with
  | nil => simp [Save.loop]
  | cons p ps ih =>
    simp [Save.loop, CVariant.get, CVariant.set, CVariant.lookup, CVariant.assign,
      CVariant.push_back, ih]

theorem Load_loop_strings (ps : List String) (acc : List String) (hp : ∀ p ∈ ps, p ≠ "") :
    Load.loop (ps.map VariantTypeString) acc = acc ++ ps := by
  induction ps generalizing acc with
  | nil => simp [Load.loop]
  | cons p ps ih =>
    have h1 : p ≠ "" := hp p (List.mem_cons_self _ _)
    have h2 : ∀ q ∈ ps, q ≠ "" := fun q hq => hp q (List.mem_cons_of_mem _ hq)
    simp [Load.loop, CVariant.isString, CVariant.asString, h1, ih _ h2]

theorem Save_empty_object (h : Host) (r : CDatabaseQueryRule)
    (hs : ¬ (r.m_parameter = [] ∧ r.m_operator ≠ OPERATOR_TRUE ∧ r.m_operator ≠ OPERATOR_FALSE)) :
    Save h r (VariantTypeObject []) = (true, VariantTypeObject
      [("field", VariantTypeString (h.TranslateFieldToString r.m_field)),
       ("operator", VariantTypeString (TranslateOperatorToString r.m_operator)),
       ("value", VariantTypeArray (r.m_parameter.map VariantTypeString))]) := by
  unfold Save
  rw [if_neg]
  · simp only [CVariant.set, CVariant.assign]
    have e1 : ("field" = "operator") = False := by decide
    have e2 : ("field" = "value") = False := by decide
    have e3 : ("operator" = "value") = False := by decide
    simp only [e1, e2, e3, if_false]
    rw [Save_loop_value]
    simp
  · simp only [CVariant.isNull, Bool.false_eq_true, false_or]
    exact hs

theorem PrepareSQL_like (db : CDatabase) (p : String) :
    db.PrepareSQL " LIKE '%s'" [p] = " LIKE '" ++ db.escape p ++ "'" := by
  apply String.ext
  simp [CDatabase.PrepareSQL, formatAux]

theorem PrepareSQL_not_equal (db : CDatabase) (p : String) :
    db.PrepareSQL " != %s" [p] = " != " ++ db.escape p := by
  apply String.ext
  simp [CDatabase.PrepareSQL, formatAux]

theorem PrepareSQL_between_decimal (db : CDatabase) (e p0 p1 : String) :
    db.PrepareSQL "CAST(%s as DECIMAL(5,1)) BETWEEN %s AND %s" [e, p0, p1]
      = "CAST(" ++ db.escape e ++ " as DECIMAL(5,1)) BETWEEN " ++ db.escape p0 ++ " AND "
          ++ db.escape p1 := by
  apply String.ext
  simp [CDatabase.PrepareSQL, formatAux]

theorem PrepareSQL_between_integer (db : CDatabase) (e p0 p1 : String) :
    db.PrepareSQL "CAST(%s as INTEGER) BETWEEN %s AND %s" [e, p0, p1]
      = "CAST(" ++ db.escape e ++ " as INTEGER) BETWEEN " ++ db.escape p0 ++ " AND "
          ++ db.escape p1 := by
  apply String.ext
  simp [CDatabase.PrepareSQL, formatAux]

theorem PrepareSQL_between_text (db : CDatabase) (e p0 p1 : String) :
    db.PrepareSQL "%s BETWEEN '%s' AND '%s'" [e, p0, p1]
      = db.escape e ++ " BETWEEN '" ++ db.escape p0 ++ "' AND '" ++ db.escape p1 ++ "'" := by
  apply String.ext
  simp [CDatabase.PrepareSQL, formatAux]

theorem FormatParameter_scalar (h : Host) (r : CDatabaseQueryRule) (oper param : String)
    (db : CDatabase) (strType : String)
    (h1 : h.GetFieldType r.m_field ≠ TEXTIN_FIELD) (h2 : h.GetFieldType r.m_field ≠ DATE_FIELD) :
    FormatParameter h r oper param db strType = db.PrepareSQL oper [param] := by
  simp [FormatParameter, h1, h2]

theorem GetWhereClause_of_plain (h : Host) (r : CDatabaseQueryRule) (db : CDatabase)
    (strType : String)
    (hT : r.m_operator ≠ OPERATOR_TRUE) (hF : r.m_operator ≠ OPERATOR_FALSE)
    (hB : h.GetOperator r strType ≠ OPERATOR_BETWEEN) :
    GetWhereClause h r db strType =
      String.intercalate " OR " (r.m_parameter.map (fun p =>
        "(" ++ FormatWhereClause h r (GetWhereClause.negate h r (h.GetOperator r strType))
          (GetOperatorString h r (h.GetOperator r strType)) p db strType ++ ")")) := by
  unfold CDatabaseQueryRule.GetWhereClause
  simp only [hT, hF, or_self, if_false, hB]
  exact GetWhereClause_loop_eq _ _

/-! ## Lemmas on the combination -/

namespace CDatabaseQueryRuleCombination

theorem combinations_loop_rest (h : Host) (db : CDatabase) (strType : String)
    (t : COMBINATION_TYPE) (cs : List CDatabaseQueryRuleCombination) (acc : String) :
    GetWhereClause.combinations h db strType t cs false acc
      = String.intercalate.go acc (if t = CombinationAnd then " AND " else " OR ")
          (cs.map (fun c => "(" ++ GetWhereClause h db strType c ++ ")")) := by
  induction cs generalizing acc with
  | nil => simp [GetWhereClause.combinations, String.intercalate.go]
  | cons c cs ih =>
    rw [GetWhereClause.combinations]
    simp only [Bool.not_false, if_true, List.map_cons, String.intercalate.go]
    rw [ih]

theorem combinations_loop_eq (h : Host) (db : CDatabase) (strType : String)
    (t : COMBINATION_TYPE) (cs : List CDatabaseQueryRuleCombination) :
    GetWhereClause.combinations h db strType t cs true ""
      = String.intercalate (if t = CombinationAnd then " AND " else " OR ")
          (cs.map (fun c => "(" ++ GetWhereClause h db strType c ++ ")")) := by
  cases cs with
  | nil => simp [GetWhereClause.combinations, String.intercalate]
  | cons c cs =>
    rw [GetWhereClause.combinations]
    simp only [Bool.not_true, Bool.false_eq_true, if_false, String.empty_append, List.map_cons,
      String.intercalate]
    rw [combinations_loop_rest]

theorem rules_loop_rest (h : Host) (db : CDatabase) (strType : String)
    (t : COMBINATION_TYPE) (rs : List CDatabaseQueryRule) (acc : String) (ha : acc ≠ "") :
    GetWhereClause.rules h db strType t rs acc
      = String.intercalate.go acc (if t = CombinationAnd then " AND " else " OR ")
          (rs.map (fun r => "(" ++
            (if CDatabaseQueryRule.GetWhereClause h r db strType = "" then
              (if t = CombinationAnd then "'1'" else "'0'")
             else CDatabaseQueryRule.GetWhereClause h r db strType) ++ ")")) := by
  induction rs generalizing acc with
  | nil => simp [GetWhereClause.rules, String.intercalate.go]
  | cons r rs ih =>
    rw [GetWhereClause.rules]
    simp only [ne_eq, ha, not_false_eq_true, if_true, List.map_cons, String.intercalate.go]
    rw [ih _ (string_append_ne_empty_right _ (by decide))]
    simp only [String.append_assoc]

theorem rules_loop_eq (h : Host) (db : CDatabase) (strType : String)
    (t : COMBINATION_TYPE) (rs : List CDatabaseQueryRule) :
    GetWhereClause.rules h db strType t rs ""
      = String.intercalate (if t = CombinationAnd then " AND " else " OR ")
          (rs.map (fun r => "(" ++
            (if CDatabaseQueryRule.GetWhereClause h r db strType = "" then
              (if t = CombinationAnd then "'1'" else "'0'")
             else CDatabaseQueryRule.GetWhereClause h r db strType) ++ ")")) := by
  cases rs with
  | nil => simp [GetWhereClause.rules, String.intercalate]
  | cons r rs =>
    rw [GetWhereClause.rules]
    simp only [ne_eq, not_true_eq_false, if_false, String.empty_append, List.map_cons,
      String.intercalate]
    rw [rules_loop_rest _ _ _ _ _ _ (string_append_ne_empty_right _ (by decide))]

theorem GetWhereClause_eq_join (h : Host) (db : CDatabase) (strType : String)
    (t : COMBINATION_TYPE) (cs : List CDatabaseQueryRuleCombination)
    (rs : List CDatabaseQueryRule) :
    GetWhereClause h db strType (mk t cs rs)
      = String.intercalate (if t = CombinationAnd then " AND " else " OR ")
          (cs.map (fun c => "(" ++ GetWhereClause h db strType c ++ ")") ++
           rs.map (fun r => "(" ++
            (if CDatabaseQueryRule.GetWhereClause h r db strType = "" then
              (if t = CombinationAnd then "'1'" else "'0'")
             else CDatabaseQueryRule.GetWhereClause h r db strType) ++ ")")) := by
  rw [GetWhereClause, combinations_loop_eq]
  cases cs with
  | nil =>
    simp only [List.map_nil, String.intercalate, List.nil_append]
    exact rules_loop_eq h db strType t rs
  | cons c cs =>
    simp only [List.map_cons, String.intercalate, List.cons_append]
    rw [rules_loop_rest _ _ _ _ _ _
      (intercalate_go_ne_empty _ _ _ (string_append_ne_empty_right _ (by decide)))]
    rw [intercalate_go_append]

end CDatabaseQueryRuleCombination

/-! ## Lemmas on saving to markup -/

theorem SaveXml_loop_children (ps : List String) (t : NodeType) (v : String)
    (a : List (String × String)) (c : List TiXmlNode) :
    CDatabaseQueryRule.SaveXml.loop ps (TiXmlNode.mk t v a c)
      = TiXmlNode.mk t v a (c ++ ps.map (fun p =>
          TiXmlNode.mk NodeType.TINYXML_ELEMENT "value" []
            [TiXmlNode.mk NodeType.TINYXML_TEXT p [] []])) := by
  induction ps generalizing c with
  | nil => simp [CDatabaseQueryRule.SaveXml.loop]
  | cons p ps ih =>
    simp [CDatabaseQueryRule.SaveXml.loop, TiXmlNode.InsertEndChild, TiXmlNode.TiXmlElement,
      TiXmlNode.TiXmlText, ih]

theorem SaveXml_rule_some (h : Host) (r : CDatabaseQueryRule) (p : TiXmlNode) :
    CDatabaseQueryRule.SaveXml h r (some p) =
      if r.m_parameter = [] ∧ r.m_operator ≠ OPERATOR_TRUE ∧ r.m_operator ≠ OPERATOR_FALSE then
        (false, some p)
      else
        (true, some (TiXmlNode.mk p.type p.ValueStr p.attributes (p.children ++
          [TiXmlNode.mk NodeType.TINYXML_ELEMENT "rule"
            [("field", h.TranslateFieldToString r.m_field),
             ("operator", TranslateOperatorToString r.m_operator)]
            (r.m_parameter.map (fun v =>
              TiXmlNode.mk NodeType.TINYXML_ELEMENT "value" []
                [TiXmlNode.mk NodeType.TINYXML_TEXT v [] []]))]))) := by
  obtain ⟨t, v, a, c⟩ := p
  have e1 : ("field" = "operator") = False := by decide
  simp only [CDatabaseQueryRule.SaveXml]
  split
  · rfl
  · simp only [TiXmlNode.TiXmlElement, TiXmlNode.SetAttribute, TiXmlNode.setAttr, e1, if_false,
      SaveXml_loop_children, List.nil_append, TiXmlNode.InsertEndChild, TiXmlNode.type,
      TiXmlNode.ValueStr, TiXmlNode.attributes, TiXmlNode.children]

theorem SaveXml_combination_loop (h : Host) (rs : List CDatabaseQueryRule) (t : NodeType)
    (v : String) (a : List (String × String)) (c : List TiXmlNode) :
    CDatabaseQueryRuleCombination.SaveXml.loop h rs (some (TiXmlNode.mk t v a c))
      = some (TiXmlNode.mk t v a (c ++
          (rs.filter (fun r => !decide (r.m_parameter = [] ∧ r.m_operator ≠ OPERATOR_TRUE ∧
              r.m_operator ≠ OPERATOR_FALSE))).map (fun r =>
            TiXmlNode.mk NodeType.TINYXML_ELEMENT "rule"
              [("field", h.TranslateFieldToString r.m_field),
               ("operator", TranslateOperatorToString r.m_operator)]
              (r.m_parameter.map (fun v =>
                TiXmlNode.mk NodeType.TINYXML_ELEMENT "value" []
                  [TiXmlNode.mk NodeType.TINYXML_TEXT v [] []]))))) := by
  induction rs generalizing c with
  | nil => simp [CDatabaseQueryRuleCombination.SaveXml.loop]
  | cons r rs ih =>
    rw [CDatabaseQueryRuleCombination.SaveXml.loop, SaveXml_rule_some]
    by_cases hc : r.m_parameter = [] ∧ r.m_operator ≠ OPERATOR_TRUE ∧
        r.m_operator ≠ OPERATOR_FALSE
    · rw [if_pos hc, List.filter_cons_of_neg (by simp [hc])]
      exact ih c
    · rw [if_neg hc, List.filter_cons_of_pos (by simp [hc])]
      simp only [TiXmlNode.type, TiXmlNode.ValueStr, TiXmlNode.attributes, TiXmlNode.children,
        ih, List.map_cons, List.append_assoc, List.singleton_append]

/-! ## Lemmas on loading and on the structured encoding -/

theorem Load_member_eq (h : Host) (factory : IDatabaseQueryRuleFactory) (key : String)
    (m : List (String × CVariant)) (c : CDatabaseQueryRuleCombination) :
    CDatabaseQueryRuleCombination.Load.member h factory key m c =
      if (VariantTypeObject m).isMember key && ((VariantTypeObject m).get key).isArray then
        some (CDatabaseQueryRuleCombination.Load.loop h factory
          ((VariantTypeObject m).get key).elements c)
      else none := by
  induction m with
  | nil => simp [CDatabaseQueryRuleCombination.Load.member, CVariant.isMember, CVariant.lookup]
  | cons e rest ih =>
    obtain ⟨k, v⟩ := e
    by_cases hk : k = key
    · subst hk
      cases v <;>
        simp [CDatabaseQueryRuleCombination.Load.member, CVariant.isMember, CVariant.get,
          CVariant.lookup, CVariant.isArray, CVariant.elements]
    · cases v <;>
        simp [CDatabaseQueryRuleCombination.Load.member, CVariant.isMember, CVariant.get,
          CVariant.lookup, hk, ih]

theorem Load_loop_m_type (h : Host) (factory : IDatabaseQueryRuleFactory)
    (a : List CVariant) (c : CDatabaseQueryRuleCombination) :
    (CDatabaseQueryRuleCombination.Load.loop h factory a c).m_type = c.m_type := by
  induction a generalizing c with
  | nil => simp [CDatabaseQueryRuleCombination.Load.loop]
  | cons it rest ih =>
    rw [CDatabaseQueryRuleCombination.Load.loop]
    split
    · exact ih c
    · split
      · split
        · simp only
          split
          · rw [ih]; rfl
          · exact ih c
        · exact ih c
      · split
        · simp only
          split
          · rw [ih]; rfl
          · exact ih c
        · exact ih c

theorem Load_object_eq (h : Host) (factory : IDatabaseQueryRuleFactory)
    (m : List (String × CVariant)) (c : CDatabaseQueryRuleCombination) :
    CDatabaseQueryRuleCombination.Load h factory (VariantTypeObject m) c =
      if (VariantTypeObject m).isMember "and" && ((VariantTypeObject m).get "and").isArray then
        (true, CDatabaseQueryRuleCombination.Load.loop h factory
          ((VariantTypeObject m).get "and").elements
          (CDatabaseQueryRuleCombination.mk CombinationAnd c.m_combinations c.m_rules))
      else if (VariantTypeObject m).isMember "or" && ((VariantTypeObject m).get "or").isArray then
        (true, CDatabaseQueryRuleCombination.Load.loop h factory
          ((VariantTypeObject m).get "or").elements
          (CDatabaseQueryRuleCombination.mk CombinationOr c.m_combinations c.m_rules))
      else (false, c) := by
  rw [CDatabaseQueryRuleCombination.Load, Load_member_eq, Load_member_eq]
  split <;> rename_i h1
  · split at h1
    · rename_i h2; simp only [h2, if_true]; injection h1 with h1; rw [h1]
    · exact absurd h1 (by simp)
  · split at h1
    · exact absurd h1 (by simp)
    · rename_i h2
      simp only [h2, Bool.false_eq_true, if_false]
      split <;> rename_i h3
      · split at h3
        · rename_i h4; simp only [h4, if_true]; injection h3 with h3; rw [h3]
        · exact absurd h3 (by simp)
      · split at h3
        · exact absurd h3 (by simp)
        · rename_i h4; simp only [h4, Bool.false_eq_true, if_false]

theorem m_type_mk (t : COMBINATION_TYPE) (cs : List CDatabaseQueryRuleCombination)
    (rs : List CDatabaseQueryRule) :
    (CDatabaseQueryRuleCombination.mk t cs rs).m_type = t := rfl

theorem Load_loop_filter (vs : List CVariant) (acc : List String) :
    CDatabaseQueryRule.Load.loop vs acc =
      acc ++ (vs.filter (fun v => v.isString && decide (v.asString ≠ ""))).map CVariant.asString := by
  induction vs generalizing acc with
  | nil => simp [CDatabaseQueryRule.Load.loop]
  | cons v vs ih =>
    rw [CDatabaseQueryRule.Load.loop]
    by_cases hv : (v.isString && decide (v.asString ≠ "")) = true
    · rw [if_pos hv, ih, List.filter_cons, if_pos hv]
      simp
    · rw [if_neg hv, ih, List.filter_cons, if_neg hv]

theorem lookup_assign_self (k : String) (v : CVariant) (m : List (String × CVariant)) :
    CVariant.lookup k (CVariant.assign k v m) = some v := by
  induction m with
  | nil => simp [CVariant.assign, CVariant.lookup]
  | cons e rest ih =>
    obtain ⟨k1, x⟩ := e
    by_cases hk : k1 = k
    · simp [CVariant.assign, CVariant.lookup, hk]
    · simp [CVariant.assign, CVariant.lookup, hk, ih]

theorem lookup_assign_ne (k k1 : String) (v : CVariant) (m : List (String × CVariant))
    (hne : k1 ≠ k) :
    CVariant.lookup k1 (CVariant.assign k v m) = CVariant.lookup k1 m := by
  induction m with
  | nil => simp [CVariant.assign, CVariant.lookup, Ne.symm hne]
  | cons e rest ih =>
    obtain ⟨k2, x⟩ := e
    by_cases hk : k2 = k
    · subst hk
      simp [CVariant.assign, CVariant.lookup, Ne.symm hne]
    · by_cases hk1 : k2 = k1
      · subst hk1
        simp [CVariant.assign, CVariant.lookup, hk]
      · simp [CVariant.assign, CVariant.lookup, hk, hk1, ih]

theorem assign_assign_self (k : String) (v w : CVariant) (m : List (String × CVariant)) :
    CVariant.assign k w (CVariant.assign k v m) = CVariant.assign k w m := by
  induction m with
  | nil => simp [CVariant.assign]
  | cons e rest ih =>
    obtain ⟨k1, x⟩ := e
    by_cases hk : k1 = k
    · simp [CVariant.assign, hk]
    · simp [CVariant.assign, hk, ih]

theorem Save_loop_object (ps : List String) (m : List (String × CVariant))
    (acc : List CVariant) :
    CDatabaseQueryRule.Save.loop ps
        (VariantTypeObject (CVariant.assign "value" (VariantTypeArray acc) m))
      = VariantTypeObject (CVariant.assign "value"
          (VariantTypeArray (acc ++ ps.map VariantTypeString)) m) := by
  induction ps generalizing acc with
  | nil => simp [CDatabaseQueryRule.Save.loop]
  | cons p ps ih =>
    rw [CDatabaseQueryRule.Save.loop]
    simp only [CVariant.get, CVariant.set, lookup_assign_self, Option.getD_some,
      CVariant.push_back, assign_assign_self, ih, List.map_cons]
    simp

theorem Save_object (h : Host) (r : CDatabaseQueryRule) (m : List (String × CVariant))
    (hs : ¬ (r.m_parameter = [] ∧ r.m_operator ≠ OPERATOR_TRUE ∧ r.m_operator ≠ OPERATOR_FALSE)) :
    CDatabaseQueryRule.Save h r (VariantTypeObject m) = (true, VariantTypeObject
      (CVariant.assign "value" (VariantTypeArray (r.m_parameter.map VariantTypeString))
        (CVariant.assign "operator" (VariantTypeString (TranslateOperatorToString r.m_operator))
          (CVariant.assign "field" (VariantTypeString (h.TranslateFieldToString r.m_field))
            m)))) := by
  unfold CDatabaseQueryRule.Save
  rw [if_neg]
  · simp only [CVariant.set, Save_loop_object, List.nil_append]
  · simp only [CVariant.isNull, Bool.false_eq_true, false_or]
    exact hs

theorem LoadXml_loop_filterMap (ToUtf8 : String → String → String) (encoding : String)
    (vns : List TiXmlNode) (acc : List String) :
    CDatabaseQueryRule.LoadXml.loop ToUtf8 encoding vns acc =
      acc ++ vns.filterMap (CDatabaseQueryRule.LoadXml.valueParameter ToUtf8 encoding) := by
  induction vns generalizing acc with
  | nil => simp [CDatabaseQueryRule.LoadXml.loop]
  | cons vn vns ih =>
    rw [CDatabaseQueryRule.LoadXml.loop, List.filterMap_cons]
    cases hc : vn.children.head? with
    | none =>
      have hv : CDatabaseQueryRule.LoadXml.valueParameter ToUtf8 encoding vn = none := by
        simp [CDatabaseQueryRule.LoadXml.valueParameter, hc]
      simp only [hv, ih]
    | some value =>
      by_cases ht : value.type = NodeType.TINYXML_TEXT
      · by_cases hu : LoadXml.utf8Parameter ToUtf8 encoding value.ValueStr = ""
        · have hv : CDatabaseQueryRule.LoadXml.valueParameter ToUtf8 encoding vn = none := by
            simp [CDatabaseQueryRule.LoadXml.valueParameter, hc, hu]
          simp [hv, ht, hu, ih]
        · have hv : CDatabaseQueryRule.LoadXml.valueParameter ToUtf8 encoding vn
              = some (LoadXml.utf8Parameter ToUtf8 encoding value.ValueStr) := by
            simp [CDatabaseQueryRule.LoadXml.valueParameter, hc, hu, ht]
          simp [hv, ht, hu, ih]
      · have hv : CDatabaseQueryRule.LoadXml.valueParameter ToUtf8 encoding vn = none := by
          simp [CDatabaseQueryRule.LoadXml.valueParameter, hc, ht]
        simp [hv, ht, ih]

theorem TiXmlNode_type_mk (t : NodeType) (v : String) (a : List (String × String))
    (c : List TiXmlNode) : (TiXmlNode.mk t v a c).type = t := rfl

theorem TiXmlNode_attributes_mk (t : NodeType) (v : String) (a : List (String × String))
    (c : List TiXmlNode) : (TiXmlNode.mk t v a c).attributes = a := rfl

theorem TiXmlNode_children_mk (t : NodeType) (v : String) (a : List (String × String))
    (c : List TiXmlNode) : (TiXmlNode.mk t v a c).children = c := rfl

theorem LoadXml_element (h : Host) (ToUtf8 : String → String → String)
    (r : CDatabaseQueryRule) (name : String) (attrs : List (String × String))
    (children : List TiXmlNode) (encoding fieldAttr oper : String)
    (hfield : TiXmlNode.Attribute "field" attrs = some fieldAttr)
    (hoper : TiXmlNode.Attribute "operator" attrs = some oper)
    (hT : TranslateOperator oper ≠ OPERATOR_TRUE) (hF : TranslateOperator oper ≠ OPERATOR_FALSE) :
    CDatabaseQueryRule.LoadXml h ToUtf8 r
        (some (TiXmlNode.mk NodeType.TINYXML_ELEMENT name attrs children)) encoding =
      match children with
      | [] => (false, ⟨h.TranslateField fieldAttr, TranslateOperator oper, r.m_parameter⟩)
      | parameter :: _ =>
        if parameter.type = NodeType.TINYXML_TEXT then
          (true, ⟨h.TranslateField fieldAttr, TranslateOperator oper,
            r.m_parameter ++
              (if LoadXml.utf8Parameter ToUtf8 encoding parameter.ValueStr ≠ "" then
                [LoadXml.utf8Parameter ToUtf8 encoding parameter.ValueStr] else [])⟩)
        else if parameter.type = NodeType.TINYXML_ELEMENT then
          (true, ⟨h.TranslateField fieldAttr, TranslateOperator oper,
            r.m_parameter ++
              (children.filter (fun n => n.ValueStr = "value")).filterMap
                (CDatabaseQueryRule.LoadXml.valueParameter ToUtf8 encoding)⟩)
        else (false, ⟨h.TranslateField fieldAttr, TranslateOperator oper, r.m_parameter⟩) := by
  unfold CDatabaseQueryRule.LoadXml
  simp only [TiXmlNode_type_mk, ne_eq, not_true_eq_false, if_false, TiXmlNode_attributes_mk,
    hfield, hoper, hT, hF, or_self, TiXmlNode_children_mk]
  cases children with
  | nil => simp
  | cons parameter rest =>
    simp only [List.head?_cons]
    by_cases ht : parameter.type = NodeType.TINYXML_TEXT
    · by_cases hu : LoadXml.utf8Parameter ToUtf8 encoding parameter.ValueStr = ""
      · simp [ht, hu]
      · simp [ht, hu]
    · by_cases he : parameter.type = NodeType.TINYXML_ELEMENT
      · simp [ht, he, LoadXml_loop_filterMap, TiXmlNode.childrenNamed, TiXmlNode_children_mk]
      · simp [ht, he]

theorem Rule_roundtrip (h : Host) (r : CDatabaseQueryRule) (hr : CDatabaseQueryRule.RoundTrips h r) :
    CDatabaseQueryRule.Save h r (VariantTypeObject []) = (true, VariantTypeObject
      [("field", VariantTypeString (h.TranslateFieldToString r.m_field)),
       ("operator", VariantTypeString (TranslateOperatorToString r.m_operator)),
       ("value", VariantTypeArray (r.m_parameter.map VariantTypeString))]) ∧
    CDatabaseQueryRule.Load h CDatabaseQueryRule.new (VariantTypeObject
      [("field", VariantTypeString (h.TranslateFieldToString r.m_field)),
       ("operator", VariantTypeString (TranslateOperatorToString r.m_operator)),
       ("value", VariantTypeArray (r.m_parameter.map VariantTypeString))]) = (true, r) := by
  obtain ⟨hfield, hcase⟩ := hr
  have hs : ¬ (r.m_parameter = [] ∧ r.m_operator ≠ OPERATOR_TRUE ∧
      r.m_operator ≠ OPERATOR_FALSE) := by
    rcases hcase with ⟨hb, _⟩ | ⟨_, _, hne, _⟩
    · rintro ⟨_, h1, h2⟩
      rcases hb with hb | hb
      · exact h1 hb
      · exact h2 hb
    · exact fun hc => hne hc.1
  refine ⟨Save_empty_object h r hs, ?_⟩
  obtain ⟨f, op, ps⟩ := r
  simp only at hfield hcase
  rcases hcase with ⟨hb, hps⟩ | ⟨hT, hF, _, hp⟩
  · subst hps
    simp [CDatabaseQueryRule.Load, CVariant.isObject, CVariant.isMember, CVariant.get,
      CVariant.lookup, CVariant.isString, CVariant.asString, CDatabaseQueryRule.new, hfield,
      translateOperator_roundtrip, hb]
  · simp [CDatabaseQueryRule.Load, CVariant.isObject, CVariant.isMember, CVariant.get,
      CVariant.lookup, CVariant.isString, CVariant.asString, CVariant.isArray,
      CVariant.elements, CDatabaseQueryRule.new, hfield, translateOperator_roundtrip, hT, hF,
      Load_loop_strings ps [] hp]

theorem Save_rules_eq (h : Host) (rs : List CDatabaseQueryRule) (acc : List CVariant) :
    CDatabaseQueryRuleCombination.Save.rules h rs (VariantTypeArray acc) =
      VariantTypeArray (acc ++
        (rs.filter (fun r => !decide (r.m_parameter = [] ∧ r.m_operator ≠ OPERATOR_TRUE ∧
            r.m_operator ≠ OPERATOR_FALSE))).map (fun r => VariantTypeObject
          [("field", VariantTypeString (h.TranslateFieldToString r.m_field)),
           ("operator", VariantTypeString (TranslateOperatorToString r.m_operator)),
           ("value", VariantTypeArray (r.m_parameter.map VariantTypeString))])) := by
  induction rs generalizing acc with
  | nil => simp [CDatabaseQueryRuleCombination.Save.rules]
  | cons r rs ih =>
    rw [CDatabaseQueryRuleCombination.Save.rules]
    by_cases hc : r.m_parameter = [] ∧ r.m_operator ≠ OPERATOR_TRUE ∧
        r.m_operator ≠ OPERATOR_FALSE
    · have hsave : CDatabaseQueryRule.Save h r (VariantTypeObject []) =
          (false, VariantTypeObject []) := by
        simp [CDatabaseQueryRule.Save, hc]
      simp only [hsave, Bool.false_eq_true, if_false, ih]
      rw [List.filter_cons, if_neg (by simp [hc])]
    · simp only [Save_empty_object h r hc, if_true, CVariant.push_back, ih]
      rw [List.filter_cons, if_pos (by simp [hc])]
      simp

theorem Save_combinations_eq (h : Host) (cs : List CDatabaseQueryRuleCombination)
    (acc : List CVariant) :
    CDatabaseQueryRuleCombination.Save.combinations h cs (VariantTypeArray acc) =
      VariantTypeArray (acc ++
        (cs.filter (fun c => !(c.m_combinations.isEmpty && c.m_rules.isEmpty))).map
          (fun c => (CDatabaseQueryRuleCombination.Save h c (VariantTypeObject [])).2)) := by
  induction cs generalizing acc with
  | nil => simp [CDatabaseQueryRuleCombination.Save.combinations]
  | cons c cs ih =>
    rw [CDatabaseQueryRuleCombination.Save.combinations]
    obtain ⟨t, ccs, crs⟩ := c
    by_cases hc : (ccs.isEmpty && crs.isEmpty) = true
    · have hsave : (CDatabaseQueryRuleCombination.Save h
          (CDatabaseQueryRuleCombination.mk t ccs crs) (VariantTypeObject [])).1 = false := by
        rw [CDatabaseQueryRuleCombination.Save]
        simp [hc]
      simp only [hsave, Bool.false_eq_true, if_false, ih]
      rw [List.filter_cons, if_neg (by
        simp [CDatabaseQueryRuleCombination.m_combinations, CDatabaseQueryRuleCombination.m_rules,
          hc])]
    · have hsave : (CDatabaseQueryRuleCombination.Save h
          (CDatabaseQueryRuleCombination.mk t ccs crs) (VariantTypeObject [])).1 = true := by
        rw [CDatabaseQueryRuleCombination.Save]
        simp [hc, CVariant.isObject]
      simp only [hsave, if_true, CVariant.push_back, ih]
      rw [List.filter_cons, if_pos (by
        simp [CDatabaseQueryRuleCombination.m_combinations, CDatabaseQueryRuleCombination.m_rules,
          hc])]
      simp

theorem Save_combination_object (h : Host) (t : COMBINATION_TYPE)
    (cs : List CDatabaseQueryRuleCombination) (rs : List CDatabaseQueryRule)
    (m : List (String × CVariant)) (hne : cs ≠ [] ∨ rs ≠ []) :
    CDatabaseQueryRuleCombination.Save h (CDatabaseQueryRuleCombination.mk t cs rs)
        (VariantTypeObject m) =
      (true, VariantTypeObject (CVariant.assign (if t = CombinationAnd then "and" else "or")
        (VariantTypeArray (
          (cs.filter (fun c => !(c.m_combinations.isEmpty && c.m_rules.isEmpty))).map
            (fun c => (CDatabaseQueryRuleCombination.Save h c (VariantTypeObject [])).2) ++
          (rs.filter (fun r => !decide (r.m_parameter = [] ∧ r.m_operator ≠ OPERATOR_TRUE ∧
              r.m_operator ≠ OPERATOR_FALSE))).map (fun r => VariantTypeObject
            [("field", VariantTypeString (h.TranslateFieldToString r.m_field)),
             ("operator", VariantTypeString (TranslateOperatorToString r.m_operator)),
             ("value", VariantTypeArray (r.m_parameter.map VariantTypeString))]))) m)) := by
  rw [CDatabaseQueryRuleCombination.Save]
  have hcond : (!(VariantTypeObject m).isObject || (cs.isEmpty && rs.isEmpty)) = false := by
    rcases hne with hne | hne
    · cases cs with
      | nil => exact absurd rfl hne
      | cons _ _ => simp [CVariant.isObject]
    · cases rs with
      | nil => exact absurd rfl hne
      | cons _ _ => simp [CVariant.isObject]
  simp only [hcond, Bool.false_eq_true, if_false, Save_combinations_eq, Save_rules_eq,
    List.nil_append, CVariant.set]

theorem Load_loop_append (h : Host) (factory : IDatabaseQueryRuleFactory)
    (xs ys : List CVariant) (c : CDatabaseQueryRuleCombination) :
    CDatabaseQueryRuleCombination.Load.loop h factory (xs ++ ys) c =
      CDatabaseQueryRuleCombination.Load.loop h factory ys
        (CDatabaseQueryRuleCombination.Load.loop h factory xs c) := by
  induction xs generalizing c with
  | nil => simp [CDatabaseQueryRuleCombination.Load.loop]
  | cons it rest ih =>
    rw [List.cons_append, CDatabaseQueryRuleCombination.Load.loop,
      CDatabaseQueryRuleCombination.Load.loop]
    split
    · exact ih c
    · split
      · split
        · simp only
          split
          · exact ih _
          · exact ih c
        · exact ih c
      · split
        · simp only
          split
          · exact ih _
          · exact ih c
        · exact ih c

theorem Load_loop_rules (h : Host) (factory : IDatabaseQueryRuleFactory)
    (hfr : factory.CreateRule = some CDatabaseQueryRule.new)
    (rs : List CDatabaseQueryRule) (hrs : ∀ r ∈ rs, CDatabaseQueryRule.RoundTrips h r)
    (t : COMBINATION_TYPE) (cs0 : List CDatabaseQueryRuleCombination)
    (rs0 : List CDatabaseQueryRule) :
    CDatabaseQueryRuleCombination.Load.loop h factory
        (rs.map (fun r => VariantTypeObject
          [("field", VariantTypeString (h.TranslateFieldToString r.m_field)),
           ("operator", VariantTypeString (TranslateOperatorToString r.m_operator)),
           ("value", VariantTypeArray (r.m_parameter.map VariantTypeString))]))
        (CDatabaseQueryRuleCombination.mk t cs0 rs0) =
      CDatabaseQueryRuleCombination.mk t cs0 (rs0 ++ rs) := by
  induction rs generalizing rs0 with
  | nil => simp [CDatabaseQueryRuleCombination.Load.loop]
  | cons r rs ih =>
    have hr := hrs r (List.mem_cons_self _ _)
    have hrest : ∀ q ∈ rs, CDatabaseQueryRule.RoundTrips h q :=
      fun q hq => hrs q (List.mem_cons_of_mem _ hq)
    have e1 : ("field" = "and") = False := by decide
    have e2 : ("operator" = "and") = False := by decide
    have e3 : ("value" = "and") = False := by decide
    have e4 : ("field" = "or") = False := by decide
    have e5 : ("operator" = "or") = False := by decide
    have e6 : ("value" = "or") = False := by decide
    rw [List.map_cons, CDatabaseQueryRuleCombination.Load.loop]
    simp only [CVariant.isObject, Bool.not_true, Bool.false_eq_true, if_false,
      CVariant.isMember, CVariant.lookup, e1, e2, e3, e4, e5, e6, Option.isSome_none,
      Bool.or_self, hfr, (Rule_roundtrip h r hr).2, if_true,
      CDatabaseQueryRuleCombination.m_type, CDatabaseQueryRuleCombination.m_combinations,
      CDatabaseQueryRuleCombination.m_rules]
    rw [ih hrest]
    simp

theorem Save_empty_object_shape (h : Host) (t : COMBINATION_TYPE)
    (cs : List CDatabaseQueryRuleCombination) (rs : List CDatabaseQueryRule)
    (hne : cs ≠ [] ∨ rs ≠ []) :
    ∃ arr, (CDatabaseQueryRuleCombination.Save h (CDatabaseQueryRuleCombination.mk t cs rs)
        (VariantTypeObject [])).2 =
      VariantTypeObject [(if t = CombinationAnd then "and" else "or", arr)] := by
  rw [Save_combination_object h t cs rs [] hne]
  exact ⟨_, rfl⟩

mutual
theorem Load_Save_combination (h : Host) (factory : IDatabaseQueryRuleFactory)
    (hfr : factory.CreateRule = some CDatabaseQueryRule.new)
    (hfc : factory.CreateCombination = some CDatabaseQueryRuleCombination.new) :
    ∀ c : CDatabaseQueryRuleCombination, CDatabaseQueryRuleCombination.RoundTrips h c →
      CDatabaseQueryRuleCombination.Load h factory
        (CDatabaseQueryRuleCombination.Save h c (VariantTypeObject [])).2
        CDatabaseQueryRuleCombination.new = (true, c)
  | .mk t cs rs => by
    intro hwf
    rw [CDatabaseQueryRuleCombination.RoundTrips] at hwf
    obtain ⟨hne, hcs, hrs⟩ := hwf
    have hall := Load_Save_combinations h factory hfr hfc cs hcs
    rw [Save_combination_object h t cs rs [] hne]
    have hfc1 : (cs.filter (fun c => !(c.m_combinations.isEmpty && c.m_rules.isEmpty))) = cs :=
      List.filter_eq_self.mpr (fun c hc => hall.1 c hc)
    have hfr1 : (rs.filter (fun r => !decide (r.m_parameter = [] ∧
        r.m_operator ≠ OPERATOR_TRUE ∧ r.m_operator ≠ OPERATOR_FALSE))) = rs := by
      apply List.filter_eq_self.mpr
      intro r hr
      obtain ⟨_, hcase⟩ := hrs r hr
      rcases hcase with ⟨hb, _⟩ | ⟨_, _, hn, _⟩
      · rcases hb with hb | hb <;> simp [hb]
      · simp [hn]
    rw [hfc1, hfr1]
    simp only [CVariant.assign]
    rw [Load_object_eq]
    cases t with
    | CombinationAnd =>
      simp only [if_true, CVariant.isMember, CVariant.lookup, Option.isSome_some, CVariant.get,
        Option.getD_some, CVariant.isArray, Bool.and_self, CVariant.elements,
        CDatabaseQueryRuleCombination.new, CDatabaseQueryRuleCombination.m_combinations,
        CDatabaseQueryRuleCombination.m_rules]
      rw [Load_loop_append, hall.2, Load_loop_rules h factory hfr rs hrs]
      simp
    | CombinationOr =>
      have e : ("or" = "and") = False := by decide
      simp only [reduceCtorEq, if_false, CVariant.isMember, CVariant.lookup, e,
        Option.isSome_none, Bool.false_and, Bool.false_eq_true, if_true, Option.isSome_some,
        CVariant.get, Option.getD_some, CVariant.isArray, Bool.and_self, CVariant.elements,
        CDatabaseQueryRuleCombination.new, CDatabaseQueryRuleCombination.m_combinations,
        CDatabaseQueryRuleCombination.m_rules]
      rw [Load_loop_append, hall.2, Load_loop_rules h factory hfr rs hrs]
      simp
theorem Load_Save_combinations (h : Host) (factory : IDatabaseQueryRuleFactory)
    (hfr : factory.CreateRule = some CDatabaseQueryRule.new)
    (hfc : factory.CreateCombination = some CDatabaseQueryRuleCombination.new) :
    ∀ cs : List CDatabaseQueryRuleCombination,
      CDatabaseQueryRuleCombination.RoundTrips.list h cs →
      (∀ c ∈ cs, (!(c.m_combinations.isEmpty && c.m_rules.isEmpty)) = true) ∧
      ∀ (t : COMBINATION_TYPE) (cs0 : List CDatabaseQueryRuleCombination)
        (rs0 : List CDatabaseQueryRule),
        CDatabaseQueryRuleCombination.Load.loop h factory
          (cs.map (fun c => (CDatabaseQueryRuleCombination.Save h c (VariantTypeObject [])).2))
          (CDatabaseQueryRuleCombination.mk t cs0 rs0) =
        CDatabaseQueryRuleCombination.mk t (cs0 ++ cs) rs0
  | [] => by
    intro _
    exact ⟨by simp, by simp [CDatabaseQueryRuleCombination.Load.loop]⟩
  | c :: rest => by
    intro hwf
    rw [CDatabaseQueryRuleCombination.RoundTrips.list] at hwf
    obtain ⟨hc, hrest⟩ := hwf
    have ih1 := Load_Save_combination h factory hfr hfc c hc
    have ih2 := Load_Save_combinations h factory hfr hfc rest hrest
    obtain ⟨ct, ccs, crs⟩ := c
    have hne : ccs ≠ [] ∨ crs ≠ [] := by
      rw [CDatabaseQueryRuleCombination.RoundTrips] at hc
      exact hc.1
    have hnb : (!((CDatabaseQueryRuleCombination.mk ct ccs crs).m_combinations.isEmpty &&
        (CDatabaseQueryRuleCombination.mk ct ccs crs).m_rules.isEmpty)) = true := by
      simp only [CDatabaseQueryRuleCombination.m_combinations,
        CDatabaseQueryRuleCombination.m_rules]
      rcases hne with hne | hne
      · cases ccs with
        | nil => exact absurd rfl hne
        | cons _ _ => simp
      · cases crs with
        | nil => exact absurd rfl hne
        | cons _ _ => simp
    refine ⟨?_, ?_⟩
    · intro x hx
      rcases List.mem_cons.mp hx with hx | hx
      · rw [hx]; exact hnb
      · exact ih2.1 x hx
    · intro t cs0 rs0
      obtain ⟨arr, harr⟩ := Save_empty_object_shape h ct ccs crs hne
      rw [List.map_cons, CDatabaseQueryRuleCombination.Load.loop]
      have hmem : ((CDatabaseQueryRuleCombination.Save h
          (CDatabaseQueryRuleCombination.mk ct ccs crs) (VariantTypeObject [])).2.isMember "and" ||
          (CDatabaseQueryRuleCombination.Save h
          (CDatabaseQueryRuleCombination.mk ct ccs crs) (VariantTypeObject [])).2.isMember "or")
          = true := by
        rw [harr]
        cases ct <;> simp [CVariant.isMember, CVariant.lookup]
      have hobj : (CDatabaseQueryRuleCombination.Save h
          (CDatabaseQueryRuleCombination.mk ct ccs crs) (VariantTypeObject [])).2.isObject
          = true := by
        rw [harr]; rfl
      simp only [hobj, Bool.not_true, Bool.false_eq_true, if_false, hmem, if_true, hfc, ih1,
        CDatabaseQueryRuleCombination.m_type, CDatabaseQueryRuleCombination.m_combinations,
        CDatabaseQueryRuleCombination.m_rules]
      rw [ih2.2]
      simp
end

theorem Load_new_parameters (h : Host) (obj : CVariant)
    (hs : (CDatabaseQueryRule.Load h CDatabaseQueryRule.new obj).1 = true) :
    (CDatabaseQueryRule.Load h CDatabaseQueryRule.new obj).2.m_operator
      = TranslateOperator (obj.get "operator").asString ∧
    ((TranslateOperator (obj.get "operator").asString = OPERATOR_TRUE ∨
        TranslateOperator (obj.get "operator").asString = OPERATOR_FALSE) →
      (CDatabaseQueryRule.Load h CDatabaseQueryRule.new obj).2.m_parameter = []) ∧
    (¬ (TranslateOperator (obj.get "operator").asString = OPERATOR_TRUE ∨
        TranslateOperator (obj.get "operator").asString = OPERATOR_FALSE) →
      ((obj.get "value").isString = true ∧ (obj.get "value").asString ≠ "" ∧
        (CDatabaseQueryRule.Load h CDatabaseQueryRule.new obj).2.m_parameter
          = [(obj.get "value").asString]) ∨
      ((obj.get "value").isArray = true ∧
        (CDatabaseQueryRule.Load h CDatabaseQueryRule.new obj).2.m_parameter
          = ((obj.get "value").elements.filter
              (fun v => v.isString && decide (v.asString ≠ ""))).map CVariant.asString)) := by
  unfold CDatabaseQueryRule.Load at hs ⊢
  by_cases h0 : (!obj.isObject ||
      !obj.isMember "field" || !(obj.get "field").isString ||
      !obj.isMember "operator" || !(obj.get "operator").isString) = true
  · rw [if_pos h0] at hs
    exact absurd hs (by simp)
  · rw [if_neg h0] at hs ⊢
    by_cases hb : TranslateOperator (obj.get "operator").asString = OPERATOR_TRUE ∨
        TranslateOperator (obj.get "operator").asString = OPERATOR_FALSE
    · rw [if_pos hb]
      exact ⟨rfl, fun _ => rfl, fun hn => absurd hb hn⟩
    · rw [if_neg hb] at hs ⊢
      by_cases hv : (!obj.isMember "value" ||
          (!(obj.get "value").isString && !(obj.get "value").isArray)) = true
      · rw [if_pos hv] at hs
        exact absurd hs (by simp)
      · rw [if_neg hv] at hs ⊢
        by_cases hstr : ((obj.get "value").isString &&
            decide ((obj.get "value").asString ≠ "")) = true
        · rw [if_pos hstr]
          simp only [Bool.and_eq_true, decide_eq_true_eq] at hstr
          exact ⟨rfl, fun hx => absurd hx hb, fun _ => Or.inl ⟨hstr.1, hstr.2, rfl⟩⟩
        · rw [if_neg hstr] at hs ⊢
          by_cases harr : (obj.get "value").isArray = true
          · rw [if_pos harr]
            exact ⟨rfl, fun hx => absurd hx hb,
              fun _ => Or.inr ⟨harr, by simp [CDatabaseQueryRule.new, Load_loop_filter]⟩⟩
          · rw [if_neg harr] at hs
            exact absurd hs (by simp)

theorem valueParameter_ne_empty (ToUtf8 : String → String → String) (encoding : String)
    (vn : TiXmlNode) (p : String)
    (hp : CDatabaseQueryRule.LoadXml.valueParameter ToUtf8 encoding vn = some p) : p ≠ "" := by
  unfold CDatabaseQueryRule.LoadXml.valueParameter at hp
  split at hp
  · split at hp
    · rename_i hc
      injection hp with hp
      rw [← hp]
      exact hc.2
    · exact absurd hp (by simp)
  · exact absurd hp (by simp)

/-! ## Claims -/

/-- C1 (as amended): a rule whose operator is neither TRUE nor FALSE and whose parameter
list is non-empty and holds no empty string is saved into an empty object with success,
and loading the saved value into a freshly constructed rule succeeds and gives the same
field, operator and parameter list, when the host translates the token of the rule's
field back to the field. -/
theorem C1_rule_structured_roundtrip (h : Host) (r : CDatabaseQueryRule)
    (hfield : h.TranslateField (h.TranslateFieldToString r.m_field) = r.m_field)
    (hT : r.m_operator ≠ OPERATOR_TRUE) (hF : r.m_operator ≠ OPERATOR_FALSE)
    (hne : r.m_parameter ≠ [])
    (hp : ∀ p ∈ r.m_parameter, p ≠ "") :
    (CDatabaseQueryRule.Save h r (VariantTypeObject [])).1 = true ∧
    CDatabaseQueryRule.Load h CDatabaseQueryRule.new
      (CDatabaseQueryRule.Save h r (VariantTypeObject [])).2 = (true, r) := by
  have hs : ¬ (r.m_parameter = [] ∧ r.m_operator ≠ OPERATOR_TRUE ∧
      r.m_operator ≠ OPERATOR_FALSE) := fun hc => hne hc.1
  rw [Save_empty_object h r hs]
  refine ⟨rfl, ?_⟩
  obtain ⟨f, op, ps⟩ := r
  simp only at hfield hT hF hp
  simp [Load, CVariant.isObject, CVariant.isMember, CVariant.get, CVariant.lookup,
    CVariant.isString, CVariant.asString, CVariant.isArray, CVariant.elements,
    CDatabaseQueryRule.new, hfield, translateOperator_roundtrip, hT, hF,
    Load_loop_strings ps [] hp]

/-- C1, at the rule (genre, EQUALS, ["rock", "pop"]) of the example host. -/
theorem C1_rule_structured_roundtrip_witness :
    (CDatabaseQueryRule.Save exampleHost ⟨1, OPERATOR_EQUALS, ["rock", "pop"]⟩
      (VariantTypeObject [])).1 = true ∧
    CDatabaseQueryRule.Load exampleHost CDatabaseQueryRule.new
      (CDatabaseQueryRule.Save exampleHost ⟨1, OPERATOR_EQUALS, ["rock", "pop"]⟩
        (VariantTypeObject [])).2 = (true, ⟨1, OPERATOR_EQUALS, ["rock", "pop"]⟩) :=
  C1_rule_structured_roundtrip exampleHost ⟨1, OPERATOR_EQUALS, ["rock", "pop"]⟩
    (by decide) (by decide) (by decide) (by decide) (by decide)

/-- C1 as stated fails: the rule (genre, EQUALS, [""]) has a non-empty parameter list, an
operator that is neither TRUE nor FALSE and a field whose token translates back, its
Save into an empty object succeeds, and Load of the saved value succeeds but stores no
parameter, because Load drops empty strings. -/
theorem C1_counterexample :
    exampleHost.TranslateField (exampleHost.TranslateFieldToString 1) = 1 ∧
    (⟨1, OPERATOR_EQUALS, [""]⟩ : CDatabaseQueryRule).m_parameter ≠ [] ∧
    (CDatabaseQueryRule.Save exampleHost ⟨1, OPERATOR_EQUALS, [""]⟩
      (VariantTypeObject [])).1 = true ∧
    CDatabaseQueryRule.Load exampleHost CDatabaseQueryRule.new
      (CDatabaseQueryRule.Save exampleHost ⟨1, OPERATOR_EQUALS, [""]⟩
        (VariantTypeObject [])).2 = (true, ⟨1, OPERATOR_EQUALS, []⟩) ∧
    CDatabaseQueryRule.Load exampleHost CDatabaseQueryRule.new
      (CDatabaseQueryRule.Save exampleHost ⟨1, OPERATOR_EQUALS, [""]⟩
        (VariantTypeObject [])).2 ≠ (true, ⟨1, OPERATOR_EQUALS, [""]⟩) := by
  decide

/-- C2: the operator table has 15 entries; for each entry (token, op) the translation of
the token is op and the translation of op is the token; translating an operator to its
token and back is the identity on all operators, and translating a table token to its
operator and back is the identity on all table tokens. -/
theorem C2_token_symmetry :
    operators.length = 15 ∧
    (∀ e ∈ operators, TranslateOperator e.string = e.op ∧
      TranslateOperatorToString e.op = e.string) ∧
    (∀ op : SEARCH_OPERATOR, TranslateOperator (TranslateOperatorToString op) = op) ∧
    (∀ e ∈ operators, TranslateOperatorToString (TranslateOperator e.string) = e.string) := by
  refine ⟨rfl, by decide, ?_, by decide⟩
  intro op
  cases op <;> decide

/-- C2, at the table entry ("isnot", DOES_NOT_EQUAL). -/
theorem C2_token_symmetry_witness :
    (TranslateOperator "isnot" = OPERATOR_DOES_NOT_EQUAL ∧
      TranslateOperatorToString OPERATOR_DOES_NOT_EQUAL = "isnot") ∧
    TranslateOperatorToString (TranslateOperator "isnot") = "isnot" :=
  ⟨C2_token_symmetry.2.1 ⟨"isnot", OPERATOR_DOES_NOT_EQUAL, 21403⟩ (by decide),
   C2_token_symmetry.2.2.2 ⟨"isnot", OPERATOR_DOES_NOT_EQUAL, 21403⟩ (by decide)⟩

/-- C3: for every string s, the translation of s is the operator of the table entry whose
token equals s ignoring ASCII case, and is CONTAINS when s equals no table token ignoring
case; so the empty string, "isnot " and "contain" give CONTAINS, while "IsNot" gives
DOES_NOT_EQUAL. -/
theorem C3_case_insensitive_exact_match (s : String) :
    (∀ e ∈ operators, EqualsNoCase s e.string = true → TranslateOperator s = e.op) ∧
    ((∀ e ∈ operators, EqualsNoCase s e.string = false) →
      TranslateOperator s = OPERATOR_CONTAINS) ∧
    TranslateOperator "" = OPERATOR_CONTAINS ∧
    TranslateOperator "isnot " = OPERATOR_CONTAINS ∧
    TranslateOperator "contain" = OPERATOR_CONTAINS ∧
    TranslateOperator "IsNot" = OPERATOR_DOES_NOT_EQUAL := by
  refine ⟨?_, ?_, by decide, by decide, by decide, by decide⟩
  · intro e he hm
    simp only [operators, List.mem_cons, List.mem_singleton, List.not_mem_nil, or_false] at he
    rcases he with rfl | rfl | rfl | rfl | rfl | rfl | rfl | rfl | rfl | rfl | rfl | rfl |
      rfl | rfl | rfl <;>
    · simp only [EqualsNoCase, beq_iff_eq] at hm
      simp [TranslateOperator, TranslateOperator.loop, operators, EqualsNoCase, hm]
  · intro hall
    simp [operators] at hall
    simp [TranslateOperator, TranslateOperator.loop, operators, hall]

/-- C3, at the strings "BETWEEN" (equal to the token "between" ignoring case) and
"betwee" (equal to no token). -/
theorem C3_case_insensitive_exact_match_witness :
    TranslateOperator "BETWEEN" = OPERATOR_BETWEEN ∧
    TranslateOperator "betwee" = OPERATOR_CONTAINS :=
  ⟨(C3_case_insensitive_exact_match "BETWEEN").1 ⟨"between", OPERATOR_BETWEEN, 21456⟩
      (by decide) (by decide),
   (C3_case_insensitive_exact_match "betwee").2.1 (by decide)⟩

/-- C4 (as amended): for every rule whose stored operator is neither TRUE nor FALSE and
whose effective operator is not BETWEEN, the clause of the rule is the join, with
separator " OR ", of "(" ++ FormatWhereClause(p) ++ ")" over the parameters p in order,
with no leading or trailing separator; and a rule with parameters ["a", "b"], stored and
effective operator EQUALS, on a plain-text field that is not the field none and has a
non-empty expression expr, compiles to "(expr LIKE 'a') OR (expr LIKE 'b')", a and b as
the backend's substitution inserts them. -/
theorem C4_multi_parameter_or (h : Host) (r : CDatabaseQueryRule) (db : CDatabase)
    (strType : String) :
    (r.m_operator ≠ OPERATOR_TRUE → r.m_operator ≠ OPERATOR_FALSE →
      h.GetOperator r strType ≠ OPERATOR_BETWEEN →
      CDatabaseQueryRule.GetWhereClause h r db strType =
        String.intercalate " OR " (r.m_parameter.map (fun p =>
          "(" ++ FormatWhereClause h r (GetWhereClause.negate h r (h.GetOperator r strType))
            (GetOperatorString h r (h.GetOperator r strType)) p db strType ++ ")"))) ∧
    (r.m_operator = OPERATOR_EQUALS → h.GetOperator r strType = OPERATOR_EQUALS →
      r.m_parameter = ["a", "b"] → h.GetFieldType r.m_field = TEXT_FIELD →
      r.m_field ≠ 0 → h.GetField r.m_field strType ≠ "" →
      CDatabaseQueryRule.GetWhereClause h r db strType =
        "(" ++ h.GetField r.m_field strType ++ " LIKE '" ++ db.escape "a" ++ "') OR (" ++
          h.GetField r.m_field strType ++ " LIKE '" ++ db.escape "b" ++ "')") := by
  refine ⟨GetWhereClause_of_plain h r db strType, ?_⟩
  intro hop heff hps hft hf he
  rw [GetWhereClause_of_plain h r db strType (by rw [hop]; decide) (by rw [hop]; decide)
    (by rw [heff]; decide)]
  rw [hps]
  simp only [List.map_cons, List.map_nil]
  rw [FormatWhereClause_of_expr h r _ _ _ db strType hf he,
    FormatWhereClause_of_expr h r _ _ _ db strType hf he,
    FormatParameter_scalar h r _ _ db strType (by rw [hft]; decide) (by rw [hft]; decide),
    FormatParameter_scalar h r _ _ db strType (by rw [hft]; decide) (by rw [hft]; decide)]
  simp only [heff, GetWhereClause.negate, GetOperatorString, hft]
  simp only [PrepareSQL_like, String.intercalate, String.intercalate.go, String.append_assoc,
    reduceCtorEq, false_or, false_and, or_self, if_false, String.empty_append, ne_eq,
    not_false_eq_true, if_true]
  apply String.ext
  simp

/-- C4, at the rule (genre, EQUALS, ["a", "b"]) of the example host: both parts give
"(genre.strGenre LIKE 'a') OR (genre.strGenre LIKE 'b')". -/
theorem C4_multi_parameter_or_witness :
    CDatabaseQueryRule.GetWhereClause exampleHost ⟨1, OPERATOR_EQUALS, ["a", "b"]⟩ exampleDb
        "songs" =
      String.intercalate " OR "
        ["(" ++ FormatWhereClause exampleHost ⟨1, OPERATOR_EQUALS, ["a", "b"]⟩ "" " LIKE '%s'"
            "a" exampleDb "songs" ++ ")",
         "(" ++ FormatWhereClause exampleHost ⟨1, OPERATOR_EQUALS, ["a", "b"]⟩ "" " LIKE '%s'"
            "b" exampleDb "songs" ++ ")"] ∧
    CDatabaseQueryRule.GetWhereClause exampleHost ⟨1, OPERATOR_EQUALS, ["a", "b"]⟩ exampleDb
        "songs" = "(genre.strGenre LIKE 'a') OR (genre.strGenre LIKE 'b')" :=
  ⟨(C4_multi_parameter_or exampleHost ⟨1, OPERATOR_EQUALS, ["a", "b"]⟩ exampleDb "songs").1
      (by decide) (by decide) (by decide),
   (C4_multi_parameter_or exampleHost ⟨1, OPERATOR_EQUALS, ["a", "b"]⟩ exampleDb "songs").2
      rfl rfl rfl rfl (by decide) (by decide)⟩

/-- C4 as stated fails twice. A rule with stored operator TRUE and parameter ["a"], under
a hook that makes EQUALS its effective operator, has an effective operator other than
TRUE, FALSE and BETWEEN, yet its clause is the (empty) boolean query and not the join
"(genre.strGenre LIKE 'a')". And the rule (title, EQUALS, ["a", "b"]) on a plain-text
field whose expression is empty compiles to "(1) OR (1)", not to
"( LIKE 'a') OR ( LIKE 'b')"; on the field none (0) it compiles to "() OR ()". -/
theorem C4_counterexample :
    ((remapHost OPERATOR_EQUALS).GetOperator ⟨1, OPERATOR_TRUE, ["a"]⟩ "songs"
        = OPERATOR_EQUALS ∧
      CDatabaseQueryRule.GetWhereClause (remapHost OPERATOR_EQUALS) ⟨1, OPERATOR_TRUE, ["a"]⟩
        exampleDb "songs" = "" ∧
      "(" ++ FormatWhereClause (remapHost OPERATOR_EQUALS) ⟨1, OPERATOR_TRUE, ["a"]⟩
        (GetWhereClause.negate (remapHost OPERATOR_EQUALS) ⟨1, OPERATOR_TRUE, ["a"]⟩
          OPERATOR_EQUALS)
        (GetOperatorString (remapHost OPERATOR_EQUALS) ⟨1, OPERATOR_TRUE, ["a"]⟩
          OPERATOR_EQUALS) "a" exampleDb "songs" ++ ")" = "(genre.strGenre LIKE 'a')") ∧
    (exampleHost.GetFieldType 3 = TEXT_FIELD ∧ exampleHost.GetField 3 "songs" = "" ∧
      CDatabaseQueryRule.GetWhereClause exampleHost ⟨3, OPERATOR_EQUALS, ["a", "b"]⟩ exampleDb
        "songs" = "(1) OR (1)" ∧
      CDatabaseQueryRule.GetWhereClause exampleHost ⟨0, OPERATOR_EQUALS, ["a", "b"]⟩ exampleDb
        "songs" = "() OR ()") := by
  decide

/-- C5 (as amended): for every rule whose stored operator is neither TRUE nor FALSE and
whose effective operator is BETWEEN, the clause is empty when the number of parameters
is not 2; with exactly 2 parameters p0, p1 and backend expression expr it is
"CAST(expr as DECIMAL(5,1)) BETWEEN p0 AND p1" on a numeric field,
"CAST(expr as INTEGER) BETWEEN p0 AND p1" on a duration field and
"expr BETWEEN 'p0' AND 'p1'" on any other field type, where expr, p0 and p1 stand as the
backend's substitution inserts them. -/
theorem C5_between_arity (h : Host) (r : CDatabaseQueryRule) (db : CDatabase)
    (strType : String)
    (hT : r.m_operator ≠ OPERATOR_TRUE) (hF : r.m_operator ≠ OPERATOR_FALSE)
    (hB : h.GetOperator r strType = OPERATOR_BETWEEN) :
    (r.m_parameter.length ≠ 2 → CDatabaseQueryRule.GetWhereClause h r db strType = "") ∧
    (∀ p0 p1 : String, r.m_parameter = [p0, p1] →
      (h.GetFieldType r.m_field = NUMERIC_FIELD →
        CDatabaseQueryRule.GetWhereClause h r db strType =
          "CAST(" ++ db.escape (h.GetField r.m_field strType) ++ " as DECIMAL(5,1)) BETWEEN "
            ++ db.escape p0 ++ " AND " ++ db.escape p1) ∧
      (h.GetFieldType r.m_field = SECONDS_FIELD →
        CDatabaseQueryRule.GetWhereClause h r db strType =
          "CAST(" ++ db.escape (h.GetField r.m_field strType) ++ " as INTEGER) BETWEEN "
            ++ db.escape p0 ++ " AND " ++ db.escape p1) ∧
      (h.GetFieldType r.m_field ≠ NUMERIC_FIELD → h.GetFieldType r.m_field ≠ SECONDS_FIELD →
        CDatabaseQueryRule.GetWhereClause h r db strType =
          db.escape (h.GetField r.m_field strType) ++ " BETWEEN '" ++ db.escape p0 ++ "' AND '"
            ++ db.escape p1 ++ "'")) := by
  constructor
  · intro hlen
    unfold CDatabaseQueryRule.GetWhereClause
    simp only [hT, hF, or_self, if_false, hB, if_true]
    split
    · rename_i p0 p1 heq
      rw [heq] at hlen
      exact absurd rfl hlen
    · rfl
  · intro p0 p1 hps
    unfold CDatabaseQueryRule.GetWhereClause
    simp only [hT, hF, or_self, if_false, hB, if_true, hps]
    refine ⟨?_, ?_, ?_⟩
    · intro hft
      simp only [hft, if_true]
      exact PrepareSQL_between_decimal db _ p0 p1
    · intro hft
      simp only [hft, if_true, reduceCtorEq, if_false]
      exact PrepareSQL_between_integer db _ p0 p1
    · intro h1 h2
      simp only [h1, h2, if_false]
      exact PrepareSQL_between_text db _ p0 p1

/-- C5, at the rules (rating, BETWEEN, ["1", "10"]), (rating, BETWEEN, ["1"]) and
(genre, BETWEEN, ["a", "k"]) of the example host. -/
theorem C5_between_arity_witness :
    CDatabaseQueryRule.GetWhereClause exampleHost ⟨2, OPERATOR_BETWEEN, ["1", "10"]⟩ exampleDb
        "songs" = "CAST(rating as DECIMAL(5,1)) BETWEEN 1 AND 10" ∧
    CDatabaseQueryRule.GetWhereClause exampleHost ⟨2, OPERATOR_BETWEEN, ["1"]⟩ exampleDb
        "songs" = "" ∧
    CDatabaseQueryRule.GetWhereClause exampleHost ⟨1, OPERATOR_BETWEEN, ["a", "k"]⟩ exampleDb
        "songs" = "genre.strGenre BETWEEN 'a' AND 'k'" :=
  ⟨((C5_between_arity exampleHost ⟨2, OPERATOR_BETWEEN, ["1", "10"]⟩ exampleDb "songs"
      (by decide) (by decide) rfl).2 "1" "10" rfl).1 rfl,
   (C5_between_arity exampleHost ⟨2, OPERATOR_BETWEEN, ["1"]⟩ exampleDb "songs"
      (by decide) (by decide) rfl).1 (by decide),
   ((C5_between_arity exampleHost ⟨1, OPERATOR_BETWEEN, ["a", "k"]⟩ exampleDb "songs"
      (by decide) (by decide) rfl).2 "a" "k" rfl).2.2 (by decide) (by decide)⟩

/-- C5 as stated fails twice. A rule with stored operator TRUE and parameters
["1", "10"] on the numeric field rating, under a hook that makes BETWEEN its effective
operator, compiles to the (empty) boolean query and not to
"CAST(rating as DECIMAL(5,1)) BETWEEN 1 AND 10". And with a backend that doubles single
quotes the rule (genre, BETWEEN, ["a'", "k"]) compiles to
"genre.strGenre BETWEEN 'a''' AND 'k'": the parameter is inserted escaped, not as it is. -/
theorem C5_counterexample :
    ((remapHost OPERATOR_BETWEEN).GetOperator ⟨2, OPERATOR_TRUE, ["1", "10"]⟩ "songs"
        = OPERATOR_BETWEEN ∧
      (remapHost OPERATOR_BETWEEN).GetFieldType 2 = NUMERIC_FIELD ∧
      CDatabaseQueryRule.GetWhereClause (remapHost OPERATOR_BETWEEN)
        ⟨2, OPERATOR_TRUE, ["1", "10"]⟩ exampleDb "songs" = "") ∧
    (exampleHost.GetOperator ⟨1, OPERATOR_BETWEEN, ["a'", "k"]⟩ "songs" = OPERATOR_BETWEEN ∧
      exampleHost.GetFieldType 1 = TEXT_FIELD ∧
      CDatabaseQueryRule.GetWhereClause exampleHost ⟨1, OPERATOR_BETWEEN, ["a'", "k"]⟩
        quotingDb "songs" = "genre.strGenre BETWEEN 'a''' AND 'k'" ∧
      CDatabaseQueryRule.GetWhereClause exampleHost ⟨1, OPERATOR_BETWEEN, ["a'", "k"]⟩
        quotingDb "songs" ≠ "genre.strGenre BETWEEN 'a'' AND 'k'") := by
  decide

/-- C6: the clause of a combination is the join, with separator " AND " (connective AND)
or " OR " (connective OR), of the groups "(" ++ clause(c) ++ ")" of the child
combinations c in order, followed by the groups "(" ++ n(clause(r)) ++ ")" of the child
rules r in order, where n replaces an empty clause by '1' under AND and by '0' under OR
and keeps a non-empty clause; the join puts no connective before the first group and
exactly one between adjacent groups. So a child rule with stored and effective operator
BETWEEN and a number of parameters other than 2 contributes "('1')" under AND and
"('0')" under OR. -/
theorem C6_combination_clause_is_join (h : Host) (db : CDatabase) (strType : String)
    (t : COMBINATION_TYPE) (cs : List CDatabaseQueryRuleCombination)
    (rs : List CDatabaseQueryRule) :
    CDatabaseQueryRuleCombination.GetWhereClause h db strType
        (CDatabaseQueryRuleCombination.mk t cs rs)
      = String.intercalate (if t = CombinationAnd then " AND " else " OR ")
          (cs.map (fun c => "(" ++ CDatabaseQueryRuleCombination.GetWhereClause h db strType c
              ++ ")") ++
           rs.map (fun r => "(" ++
            (if CDatabaseQueryRule.GetWhereClause h r db strType = "" then
              (if t = CombinationAnd then "'1'" else "'0'")
             else CDatabaseQueryRule.GetWhereClause h r db strType) ++ ")")) ∧
    (∀ r : CDatabaseQueryRule, r.m_operator = OPERATOR_BETWEEN →
      h.GetOperator r strType = OPERATOR_BETWEEN → r.m_parameter.length ≠ 2 →
      CDatabaseQueryRuleCombination.GetWhereClause h db strType
          (CDatabaseQueryRuleCombination.mk CombinationAnd [] [r]) = "('1')" ∧
      CDatabaseQueryRuleCombination.GetWhereClause h db strType
          (CDatabaseQueryRuleCombination.mk CombinationOr [] [r]) = "('0')") := by
  refine ⟨CDatabaseQueryRuleCombination.GetWhereClause_eq_join h db strType t cs rs, ?_⟩
  intro r hop heff hlen
  have hempty : CDatabaseQueryRule.GetWhereClause h r db strType = "" := by
    unfold CDatabaseQueryRule.GetWhereClause
    simp only [hop, reduceCtorEq, or_self, if_false, heff, if_true]
    split
    · rename_i p0 p1 heq
      rw [heq] at hlen
      exact absurd rfl hlen
    · rfl
  rw [CDatabaseQueryRuleCombination.GetWhereClause_eq_join,
    CDatabaseQueryRuleCombination.GetWhereClause_eq_join]
  simp only [List.map_nil, List.nil_append, List.map_cons, hempty, if_true, reduceCtorEq,
    if_false, String.intercalate, String.intercalate.go]
  exact ⟨rfl, rfl⟩

/-- C6, at the BETWEEN rule of the example host with one parameter and with three. -/
theorem C6_combination_clause_is_join_witness :
    (CDatabaseQueryRuleCombination.GetWhereClause exampleHost exampleDb "songs"
        (CDatabaseQueryRuleCombination.mk CombinationAnd [] [⟨2, OPERATOR_BETWEEN, ["1"]⟩])
        = "('1')" ∧
      CDatabaseQueryRuleCombination.GetWhereClause exampleHost exampleDb "songs"
        (CDatabaseQueryRuleCombination.mk CombinationOr [] [⟨2, OPERATOR_BETWEEN, ["1"]⟩])
        = "('0')") ∧
    (CDatabaseQueryRuleCombination.GetWhereClause exampleHost exampleDb "songs"
        (CDatabaseQueryRuleCombination.mk CombinationAnd []
          [⟨2, OPERATOR_BETWEEN, ["1", "2", "3"]⟩]) = "('1')" ∧
      CDatabaseQueryRuleCombination.GetWhereClause exampleHost exampleDb "songs"
        (CDatabaseQueryRuleCombination.mk CombinationOr []
          [⟨2, OPERATOR_BETWEEN, ["1", "2", "3"]⟩]) = "('0')") :=
  ⟨(C6_combination_clause_is_join exampleHost exampleDb "songs" CombinationAnd [] []).2
      ⟨2, OPERATOR_BETWEEN, ["1"]⟩ rfl rfl (by decide),
   (C6_combination_clause_is_join exampleHost exampleDb "songs" CombinationAnd [] []).2
      ⟨2, OPERATOR_BETWEEN, ["1", "2", "3"]⟩ rfl rfl (by decide)⟩

/-- C7, the code at the failing input: a combination whose only child is a combination
without rules and without sub-combinations compiles to the group "()", under AND and
under OR alike, while a child rule with an empty clause (BETWEEN with one parameter)
gets the neutral literal. -/
theorem C7_empty_sub_combination_group (h : Host) (db : CDatabase) (strType : String) :
    CDatabaseQueryRuleCombination.GetWhereClause h db strType
      (CDatabaseQueryRuleCombination.mk CombinationAnd
        [CDatabaseQueryRuleCombination.mk CombinationAnd [] []] []) = "()" ∧
    CDatabaseQueryRuleCombination.GetWhereClause h db strType
      (CDatabaseQueryRuleCombination.mk CombinationOr
        [CDatabaseQueryRuleCombination.mk CombinationAnd [] []] []) = "()" ∧
    CDatabaseQueryRuleCombination.GetWhereClause exampleHost exampleDb "songs"
      (CDatabaseQueryRuleCombination.mk CombinationAnd
        [CDatabaseQueryRuleCombination.mk CombinationAnd [] []]
        [⟨2, OPERATOR_BETWEEN, ["1"]⟩]) = "() AND ('1')" := by
  refine ⟨rfl, rfl, by decide⟩

/-- C8 (as amended): the negation flag is " NOT" exactly when the effective operator is
DOES_NOT_CONTAIN, or FALSE, or DOES_NOT_EQUAL on a field that is neither numeric nor
duration, and is empty otherwise; and a rule with stored and effective operator
DOES_NOT_EQUAL and the single parameter p, on a field that is not the field none and has
the expression expr, compiles to "(expr NOT LIKE 'p')" on a plain-text field when expr
is non-empty, and to "(CAST(expr as DECIMAL(5,1)) != p)" on a numeric field, p as the
backend's substitution inserts it. -/
theorem C8_negation_coverage (h : Host) (r : CDatabaseQueryRule) (db : CDatabase)
    (strType : String) :
    (∀ op : SEARCH_OPERATOR,
      (GetWhereClause.negate h r op = " NOT" ↔
        (op = OPERATOR_DOES_NOT_CONTAIN ∨ op = OPERATOR_FALSE ∨
          (op = OPERATOR_DOES_NOT_EQUAL ∧ h.GetFieldType r.m_field ≠ NUMERIC_FIELD ∧
            h.GetFieldType r.m_field ≠ SECONDS_FIELD))) ∧
      (GetWhereClause.negate h r op = "" ↔
        ¬ (op = OPERATOR_DOES_NOT_CONTAIN ∨ op = OPERATOR_FALSE ∨
          (op = OPERATOR_DOES_NOT_EQUAL ∧ h.GetFieldType r.m_field ≠ NUMERIC_FIELD ∧
            h.GetFieldType r.m_field ≠ SECONDS_FIELD)))) ∧
    (∀ p : String, r.m_operator = OPERATOR_DOES_NOT_EQUAL →
      h.GetOperator r strType = OPERATOR_DOES_NOT_EQUAL → r.m_parameter = [p] →
      r.m_field ≠ 0 →
      (h.GetFieldType r.m_field = TEXT_FIELD → h.GetField r.m_field strType ≠ "" →
        CDatabaseQueryRule.GetWhereClause h r db strType =
          "(" ++ h.GetField r.m_field strType ++ " NOT LIKE '" ++ db.escape p ++ "')") ∧
      (h.GetFieldType r.m_field = NUMERIC_FIELD →
        CDatabaseQueryRule.GetWhereClause h r db strType =
          "(CAST(" ++ h.GetField r.m_field strType ++ " as DECIMAL(5,1)) != " ++ db.escape p
            ++ ")")) := by
  constructor
  · intro op
    unfold GetWhereClause.negate
    constructor
    · constructor
      · intro hn
        by_contra hc
        rw [if_neg hc] at hn
        exact absurd hn (by decide)
      · intro hc
        rw [if_pos hc]
    · constructor
      · intro hn hc
        rw [if_pos hc] at hn
        exact absurd hn (by decide)
      · intro hc
        rw [if_neg hc]
  · intro p hop heff hps hf
    have hplain := GetWhereClause_of_plain h r db strType (by rw [hop]; decide)
      (by rw [hop]; decide) (by rw [heff]; decide)
    constructor
    · intro hft he
      rw [hplain, hps]
      simp only [List.map_cons, List.map_nil]
      rw [FormatWhereClause_of_expr h r _ _ _ db strType hf he,
        FormatParameter_scalar h r _ _ db strType (by rw [hft]; decide) (by rw [hft]; decide)]
      simp only [heff, GetWhereClause.negate, GetOperatorString, hft]
      simp only [PrepareSQL_like, String.intercalate, String.intercalate.go,
        String.append_assoc, reduceCtorEq, false_or, false_and, or_self, if_false, ne_eq,
        not_false_eq_true, if_true, and_self]
      apply String.ext
      simp
    · intro hft
      rw [hplain, hps]
      simp only [List.map_cons, List.map_nil]
      rw [FormatWhereClause_of_numeric h r _ _ _ db strType hf hft,
        FormatParameter_scalar h r _ _ db strType (by rw [hft]; decide) (by rw [hft]; decide)]
      simp only [heff, GetWhereClause.negate, GetOperatorString, hft]
      simp only [PrepareSQL_not_equal, String.intercalate, String.intercalate.go,
        String.append_assoc, reduceCtorEq, false_or, false_and, or_self, if_false, ne_eq,
        not_false_eq_true, if_true, and_self, not_true_eq_false, and_false, true_or]
      apply String.ext
      simp

/-- C8, at DOES_NOT_EQUAL with parameter "p" on the plain-text field genre and on the
numeric field rating of the example host. -/
theorem C8_negation_coverage_witness :
    CDatabaseQueryRule.GetWhereClause exampleHost ⟨1, OPERATOR_DOES_NOT_EQUAL, ["p"]⟩
        exampleDb "songs" = "(genre.strGenre NOT LIKE 'p')" ∧
    CDatabaseQueryRule.GetWhereClause exampleHost ⟨2, OPERATOR_DOES_NOT_EQUAL, ["5"]⟩
        exampleDb "songs" = "(CAST(rating as DECIMAL(5,1)) != 5)" :=
  ⟨((C8_negation_coverage exampleHost ⟨1, OPERATOR_DOES_NOT_EQUAL, ["p"]⟩ exampleDb
      "songs").2 "p" rfl rfl rfl (by decide)).1 rfl (by decide),
   ((C8_negation_coverage exampleHost ⟨2, OPERATOR_DOES_NOT_EQUAL, ["5"]⟩ exampleDb
      "songs").2 "5" rfl rfl rfl (by decide)).2 rfl⟩

/-- C8 as stated fails: the rule (title, DOES_NOT_EQUAL, ["p"]) on a plain-text field
whose expression is empty compiles to "(1)" and not to "( NOT LIKE 'p')"; on the field
none (0), plain text for the example host, the same rule compiles to "()". -/
theorem C8_counterexample :
    (exampleHost.GetFieldType 3 = TEXT_FIELD ∧ exampleHost.GetField 3 "songs" = "" ∧
      CDatabaseQueryRule.GetWhereClause exampleHost ⟨3, OPERATOR_DOES_NOT_EQUAL, ["p"]⟩
        exampleDb "songs" = "(1)" ∧
      CDatabaseQueryRule.GetWhereClause exampleHost ⟨3, OPERATOR_DOES_NOT_EQUAL, ["p"]⟩
        exampleDb "songs" ≠ "(" ++ exampleHost.GetField 3 "songs" ++ " NOT LIKE 'p')") ∧
    (exampleHost.GetFieldType 0 = TEXT_FIELD ∧
      CDatabaseQueryRule.GetWhereClause exampleHost ⟨0, OPERATOR_DOES_NOT_EQUAL, ["p"]⟩
        exampleDb "songs" = "()") := by
  decide

/-- C9 (as amended): for every rule, negation, template and parameter, if the field is
not the field none, its type is neither numeric nor duration and its backend expression
is the empty string, FormatWhereClause returns exactly "1"; and if the field is not the
field none and its expression is non-empty, FormatWhereClause returns the expression,
wrapped in CAST(.. as DECIMAL(5,1)) on a numeric field and in CAST(.. as INTEGER) on a
duration field, followed by the negation and the formatted comparison. -/
theorem C9_degenerate_safety (h : Host) (r : CDatabaseQueryRule)
    (negate oper param : String) (db : CDatabase) (strType : String) :
    (r.m_field ≠ 0 → h.GetField r.m_field strType = "" →
      h.GetFieldType r.m_field ≠ NUMERIC_FIELD → h.GetFieldType r.m_field ≠ SECONDS_FIELD →
      FormatWhereClause h r negate oper param db strType = "1") ∧
    (r.m_field ≠ 0 → h.GetField r.m_field strType ≠ "" →
      FormatWhereClause h r negate oper param db strType =
        (if h.GetFieldType r.m_field = NUMERIC_FIELD then
            "CAST(" ++ h.GetField r.m_field strType ++ " as DECIMAL(5,1))"
          else if h.GetFieldType r.m_field = SECONDS_FIELD then
            "CAST(" ++ h.GetField r.m_field strType ++ " as INTEGER)"
          else h.GetField r.m_field strType)
        ++ (negate ++ FormatParameter h r oper param db strType)) := by
  constructor
  · intro hf he h1 h2
    unfold FormatWhereClause
    simp only [ne_eq, hf, not_false_eq_true, if_true, h1, h2, if_false, he, Format_text,
      String.empty_append]
  · exact FormatWhereClause_of_expr h r negate oper param db strType

/-- C9, at the plain-text field title (empty expression) and at the numeric field rating
(expression "rating") of the example host. -/
theorem C9_degenerate_safety_witness :
    FormatWhereClause exampleHost ⟨3, OPERATOR_EQUALS, ["a"]⟩ "" " LIKE '%s'" "a" exampleDb
        "songs" = "1" ∧
    FormatWhereClause exampleHost ⟨2, OPERATOR_DOES_NOT_EQUAL, ["5"]⟩ "" " != %s" "5"
        exampleDb "songs" = "CAST(rating as DECIMAL(5,1)) != 5" :=
  ⟨(C9_degenerate_safety exampleHost ⟨3, OPERATOR_EQUALS, ["a"]⟩ "" " LIKE '%s'" "a"
      exampleDb "songs").1 (by decide) rfl (by decide) (by decide),
   (C9_degenerate_safety exampleHost ⟨2, OPERATOR_DOES_NOT_EQUAL, ["5"]⟩ "" " != %s" "5"
      exampleDb "songs").2 (by decide) (by decide)⟩

/-- C9 as stated fails twice, each time with an empty backend expression: on the field
none (0) FormatWhereClause returns the empty string, and on the numeric field year it
returns "CAST( as DECIMAL(5,1)) = 5"; neither is the literal "1". -/
theorem C9_counterexample :
    (exampleHost.GetField 0 "songs" = "" ∧
      FormatWhereClause exampleHost ⟨0, OPERATOR_EQUALS, ["a"]⟩ "" " LIKE '%s'" "a" exampleDb
        "songs" = "") ∧
    (exampleHost.GetField 4 "songs" = "" ∧ exampleHost.GetFieldType 4 = NUMERIC_FIELD ∧
      FormatWhereClause exampleHost ⟨4, OPERATOR_EQUALS, ["5"]⟩ "" " = %s" "5" exampleDb
        "songs" = "CAST( as DECIMAL(5,1)) = 5") := by
  decide

/-- C10 (as amended): Save(markup) of a combination onto a node returns success and
appends to the node's children, in order and with no nesting, one `rule` element for
each of the combination's own child rules that has a parameter or the operator TRUE or
FALSE; the element carries the attributes field and operator and one `value` child,
holding a text node, per parameter. The rules of sub-combinations are not written. -/
theorem C10_markup_save_is_flat (h : Host) (t : COMBINATION_TYPE)
    (cs : List CDatabaseQueryRuleCombination) (rs : List CDatabaseQueryRule)
    (parent : TiXmlNode) :
    CDatabaseQueryRuleCombination.SaveXml h (CDatabaseQueryRuleCombination.mk t cs rs)
        (some parent)
      = (true, some (TiXmlNode.mk parent.type parent.ValueStr parent.attributes
          (parent.children ++
            (rs.filter (fun r => !decide (r.m_parameter = [] ∧ r.m_operator ≠ OPERATOR_TRUE ∧
                r.m_operator ≠ OPERATOR_FALSE))).map (fun r =>
              TiXmlNode.mk NodeType.TINYXML_ELEMENT "rule"
                [("field", h.TranslateFieldToString r.m_field),
                 ("operator", TranslateOperatorToString r.m_operator)]
                (r.m_parameter.map (fun v =>
                  TiXmlNode.mk NodeType.TINYXML_ELEMENT "value" []
                    [TiXmlNode.mk NodeType.TINYXML_TEXT v [] []])))))) := by
  obtain ⟨pt, pv, pa, pc⟩ := parent
  simp only [CDatabaseQueryRuleCombination.SaveXml, CDatabaseQueryRuleCombination.m_rules,
    SaveXml_combination_loop, TiXmlNode.type, TiXmlNode.ValueStr, TiXmlNode.attributes,
    TiXmlNode.children]

/-- C10 as stated fails: the tree whose root has no rule of its own and one
sub-combination holding the rule (genre, CONTAINS, ["rock"]) has exactly that leaf rule,
which Rule.Save accepts, yet Save(markup) of the tree onto an empty document returns
success and appends nothing. -/
theorem C10_counterexample :
    CDatabaseQueryRuleCombination.leafRules
      (CDatabaseQueryRuleCombination.mk CombinationAnd
        [CDatabaseQueryRuleCombination.mk CombinationOr [] [⟨1, OPERATOR_CONTAINS, ["rock"]⟩]]
        []) = [⟨1, OPERATOR_CONTAINS, ["rock"]⟩] ∧
    (CDatabaseQueryRule.SaveXml exampleHost ⟨1, OPERATOR_CONTAINS, ["rock"]⟩
      (some (TiXmlNode.mk NodeType.TINYXML_DOCUMENT "" [] []))).1 = true ∧
    CDatabaseQueryRuleCombination.SaveXml exampleHost
      (CDatabaseQueryRuleCombination.mk CombinationAnd
        [CDatabaseQueryRuleCombination.mk CombinationOr [] [⟨1, OPERATOR_CONTAINS, ["rock"]⟩]]
        [])
      (some (TiXmlNode.mk NodeType.TINYXML_DOCUMENT "" [] []))
      = (true, some (TiXmlNode.mk NodeType.TINYXML_DOCUMENT "" [] [])) := by
  refine ⟨by decide, by decide, rfl⟩

/-- C11: Save(structured) of a combination with no rules and no sub-combinations returns
failure and leaves the target as it is, whatever the target; and on an object target
Save returns success exactly when at least one of the two child lists is non-empty. -/
theorem C11_empty_combination_save_fails (h : Host) (t : COMBINATION_TYPE) :
    (∀ obj : CVariant,
      CDatabaseQueryRuleCombination.Save h (CDatabaseQueryRuleCombination.mk t [] []) obj
        = (false, obj)) ∧
    (∀ (cs : List CDatabaseQueryRuleCombination) (rs : List CDatabaseQueryRule)
        (m : List (String × CVariant)),
      ((CDatabaseQueryRuleCombination.Save h (CDatabaseQueryRuleCombination.mk t cs rs)
          (VariantTypeObject m)).1 = true ↔ (cs ≠ [] ∨ rs ≠ []))) := by
  constructor
  · intro obj
    simp [CDatabaseQueryRuleCombination.Save]
  · intro cs rs m
    rw [CDatabaseQueryRuleCombination.Save]
    cases cs <;> cases rs <;> simp [CVariant.isObject]

/-- C12 (as amended): Save(structured) of a combination with at least one child onto an
object succeeds and assigns to the member keyed "and" (connective AND) or "or"
(connective OR) an array that holds, in order, the serialized object of each child
sub-combination that has a child of its own, followed by the serialized object of each
child rule that has a parameter or the operator TRUE or FALSE; on an empty object this is
the only member. When every child is of that kind the array has one entry per child,
combinations before rules. -/
theorem C12_saved_combination_member (h : Host) (t : COMBINATION_TYPE)
    (cs : List CDatabaseQueryRuleCombination) (rs : List CDatabaseQueryRule)
    (hne : cs ≠ [] ∨ rs ≠ []) :
    (∀ m : List (String × CVariant),
      CDatabaseQueryRuleCombination.Save h (CDatabaseQueryRuleCombination.mk t cs rs)
          (VariantTypeObject m) =
        (true, (VariantTypeObject m).set (if t = CombinationAnd then "and" else "or")
          (VariantTypeArray (
            (cs.filter (fun c => !(c.m_combinations.isEmpty && c.m_rules.isEmpty))).map
              (fun c => (CDatabaseQueryRuleCombination.Save h c (VariantTypeObject [])).2) ++
            (rs.filter (fun r => !decide (r.m_parameter = [] ∧ r.m_operator ≠ OPERATOR_TRUE ∧
                r.m_operator ≠ OPERATOR_FALSE))).map (fun r => VariantTypeObject
              [("field", VariantTypeString (h.TranslateFieldToString r.m_field)),
               ("operator", VariantTypeString (TranslateOperatorToString r.m_operator)),
               ("value", VariantTypeArray (r.m_parameter.map VariantTypeString))]))))) ∧
    ((∀ c ∈ cs, c.m_combinations ≠ [] ∨ c.m_rules ≠ []) →
      (∀ r ∈ rs, ¬ (r.m_parameter = [] ∧ r.m_operator ≠ OPERATOR_TRUE ∧
        r.m_operator ≠ OPERATOR_FALSE)) →
      CDatabaseQueryRuleCombination.Save h (CDatabaseQueryRuleCombination.mk t cs rs)
          (VariantTypeObject []) =
        (true, VariantTypeObject [(if t = CombinationAnd then "and" else "or",
          VariantTypeArray (
            cs.map (fun c =>
              (CDatabaseQueryRuleCombination.Save h c (VariantTypeObject [])).2) ++
            rs.map (fun r => VariantTypeObject
              [("field", VariantTypeString (h.TranslateFieldToString r.m_field)),
               ("operator", VariantTypeString (TranslateOperatorToString r.m_operator)),
               ("value", VariantTypeArray (r.m_parameter.map VariantTypeString))])))])) := by
  constructor
  · intro m
    rw [Save_combination_object h t cs rs m hne]
    rfl
  · intro hcs hrs
    rw [Save_combination_object h t cs rs [] hne]
    have hfc : (cs.filter (fun c => !(c.m_combinations.isEmpty && c.m_rules.isEmpty))) = cs := by
      apply List.filter_eq_self.mpr
      intro c hc
      obtain ⟨ct, ccs, crs⟩ := c
      have := hcs _ hc
      simp only [CDatabaseQueryRuleCombination.m_combinations,
        CDatabaseQueryRuleCombination.m_rules] at this ⊢
      rcases this with hx | hx
      · cases ccs with
        | nil => exact absurd rfl hx
        | cons _ _ => simp
      · cases crs with
        | nil => exact absurd rfl hx
        | cons _ _ => simp
    have hfr : (rs.filter (fun r => !decide (r.m_parameter = [] ∧
        r.m_operator ≠ OPERATOR_TRUE ∧ r.m_operator ≠ OPERATOR_FALSE))) = rs := by
      apply List.filter_eq_self.mpr
      intro r hr
      have hx := hrs r hr
      simp only [decide_eq_true_eq, Bool.not_eq_true', decide_eq_false_iff_not]
      exact hx
    rw [hfc, hfr]
    rfl

/-- C12, at the AND combination of the example host with the sub-combination
OR(genre contains "rock") and the rule rating is "5". -/
theorem C12_saved_combination_member_witness :
    CDatabaseQueryRuleCombination.Save exampleHost
        (CDatabaseQueryRuleCombination.mk CombinationAnd
          [CDatabaseQueryRuleCombination.mk CombinationOr []
            [⟨1, OPERATOR_CONTAINS, ["rock"]⟩]]
          [⟨2, OPERATOR_EQUALS, ["5"]⟩])
        (VariantTypeObject []) =
      (true, VariantTypeObject [("and", VariantTypeArray
        [VariantTypeObject [("or", VariantTypeArray
          [VariantTypeObject [("field", VariantTypeString "genre"),
            ("operator", VariantTypeString "contains"),
            ("value", VariantTypeArray [VariantTypeString "rock"])]])],
         VariantTypeObject [("field", VariantTypeString "rating"),
            ("operator", VariantTypeString "is"),
            ("value", VariantTypeArray [VariantTypeString "5"])]])]) :=
  (C12_saved_combination_member exampleHost CombinationAnd
    [CDatabaseQueryRuleCombination.mk CombinationOr [] [⟨1, OPERATOR_CONTAINS, ["rock"]⟩]]
    [⟨2, OPERATOR_EQUALS, ["5"]⟩] (Or.inl (by simp))).2
    (by simp [CDatabaseQueryRuleCombination.m_rules]) (by simp)

/-- C12 as stated fails: the AND combination with an empty sub-combination, the rule
(genre, EQUALS, []) and the rule (genre, EQUALS, ["a"]) has three children, Save into an
empty object succeeds, and the array under "and" holds one entry, the last rule. -/
theorem C12_counterexample :
    CDatabaseQueryRuleCombination.Save exampleHost
        (CDatabaseQueryRuleCombination.mk CombinationAnd
          [CDatabaseQueryRuleCombination.mk CombinationOr [] []]
          [⟨1, OPERATOR_EQUALS, []⟩, ⟨1, OPERATOR_EQUALS, ["a"]⟩])
        (VariantTypeObject []) =
      (true, VariantTypeObject [("and", VariantTypeArray
        [VariantTypeObject [("field", VariantTypeString "genre"),
            ("operator", VariantTypeString "is"),
            ("value", VariantTypeArray [VariantTypeString "a"])]])]) := by
  rfl

/-- C13 (as amended): for every element that has both attributes field and operator and
whose operator does not translate to TRUE or FALSE, Load(markup) fails when the element
has no child, and fails when its first child is neither a text node nor an element; it
succeeds when the first child is a text node, adding the converted text as one parameter
unless it is empty, and when the first child is an element, adding one parameter per
child named value whose first child is a text node with non-empty converted text
(`LoadXml.valueParameter`), in document order. -/
theorem C13_markup_child_shape (h : Host) (ToUtf8 : String → String → String)
    (r : CDatabaseQueryRule) (name : String) (attrs : List (String × String))
    (children : List TiXmlNode) (encoding fieldAttr oper : String)
    (hfield : TiXmlNode.Attribute "field" attrs = some fieldAttr)
    (hoper : TiXmlNode.Attribute "operator" attrs = some oper)
    (hT : TranslateOperator oper ≠ OPERATOR_TRUE)
    (hF : TranslateOperator oper ≠ OPERATOR_FALSE) :
    (children = [] →
      (CDatabaseQueryRule.LoadXml h ToUtf8 r
        (some (TiXmlNode.mk NodeType.TINYXML_ELEMENT name attrs children)) encoding).1
        = false) ∧
    (∀ (parameter : TiXmlNode) (rest : List TiXmlNode), children = parameter :: rest →
      (parameter.type ≠ NodeType.TINYXML_TEXT → parameter.type ≠ NodeType.TINYXML_ELEMENT →
        (CDatabaseQueryRule.LoadXml h ToUtf8 r
          (some (TiXmlNode.mk NodeType.TINYXML_ELEMENT name attrs children)) encoding).1
          = false) ∧
      (parameter.type = NodeType.TINYXML_TEXT →
        CDatabaseQueryRule.LoadXml h ToUtf8 r
          (some (TiXmlNode.mk NodeType.TINYXML_ELEMENT name attrs children)) encoding
          = (true, ⟨h.TranslateField fieldAttr, TranslateOperator oper,
              r.m_parameter ++
                (if LoadXml.utf8Parameter ToUtf8 encoding parameter.ValueStr ≠ "" then
                  [LoadXml.utf8Parameter ToUtf8 encoding parameter.ValueStr] else [])⟩)) ∧
      (parameter.type = NodeType.TINYXML_ELEMENT →
        CDatabaseQueryRule.LoadXml h ToUtf8 r
          (some (TiXmlNode.mk NodeType.TINYXML_ELEMENT name attrs children)) encoding
          = (true, ⟨h.TranslateField fieldAttr, TranslateOperator oper,
              r.m_parameter ++
                (children.filter (fun n => n.ValueStr = "value")).filterMap
                  (CDatabaseQueryRule.LoadXml.valueParameter ToUtf8 encoding)⟩))) := by
  rw [LoadXml_element h ToUtf8 r name attrs children encoding fieldAttr oper hfield hoper hT hF]
  constructor
  · intro hc
    rw [hc]
  · intro parameter rest hc
    rw [hc]
    refine ⟨?_, ?_, ?_⟩
    · intro h1 h2
      simp only [h1, h2, if_false]
    · intro h1
      simp only [h1, if_true]
    · intro h1
      simp only [h1, reduceCtorEq, if_true, if_false]

/-- C13, at rule elements of the example host with operator "is": no child, a comment
child, a text child, and two value children of which one is empty. -/
theorem C13_markup_child_shape_witness :
    (CDatabaseQueryRule.LoadXml exampleHost exampleToUtf8 CDatabaseQueryRule.new
      (some (TiXmlNode.mk NodeType.TINYXML_ELEMENT "rule"
        [("field", "genre"), ("operator", "is")] [])) "UTF-8").1 = false ∧
    (CDatabaseQueryRule.LoadXml exampleHost exampleToUtf8 CDatabaseQueryRule.new
      (some (TiXmlNode.mk NodeType.TINYXML_ELEMENT "rule"
        [("field", "genre"), ("operator", "is")]
        [TiXmlNode.mk NodeType.TINYXML_COMMENT "rock" [] []])) "UTF-8").1 = false ∧
    CDatabaseQueryRule.LoadXml exampleHost exampleToUtf8 CDatabaseQueryRule.new
      (some (TiXmlNode.mk NodeType.TINYXML_ELEMENT "rule"
        [("field", "genre"), ("operator", "is")]
        [TiXmlNode.mk NodeType.TINYXML_TEXT "rock" [] []])) "UTF-8"
      = (true, ⟨1, OPERATOR_EQUALS, ["rock"]⟩) ∧
    CDatabaseQueryRule.LoadXml exampleHost exampleToUtf8 CDatabaseQueryRule.new
      (some (TiXmlNode.mk NodeType.TINYXML_ELEMENT "rule"
        [("field", "genre"), ("operator", "is")]
        [TiXmlNode.mk NodeType.TINYXML_ELEMENT "value" []
           [TiXmlNode.mk NodeType.TINYXML_TEXT "rock" [] []],
         TiXmlNode.mk NodeType.TINYXML_ELEMENT "value" [] [],
         TiXmlNode.mk NodeType.TINYXML_ELEMENT "value" []
           [TiXmlNode.mk NodeType.TINYXML_TEXT "pop" [] []]])) "UTF-8"
      = (true, ⟨1, OPERATOR_EQUALS, ["rock", "pop"]⟩) :=
  ⟨(C13_markup_child_shape exampleHost exampleToUtf8 CDatabaseQueryRule.new "rule"
      [("field", "genre"), ("operator", "is")] [] "UTF-8" "genre" "is" rfl rfl
      (by decide) (by decide)).1 rfl,
   ((C13_markup_child_shape exampleHost exampleToUtf8 CDatabaseQueryRule.new "rule"
      [("field", "genre"), ("operator", "is")]
      [TiXmlNode.mk NodeType.TINYXML_COMMENT "rock" [] []] "UTF-8" "genre" "is" rfl rfl
      (by decide) (by decide)).2 _ _ rfl).1 (by decide) (by decide),
   ((C13_markup_child_shape exampleHost exampleToUtf8 CDatabaseQueryRule.new "rule"
      [("field", "genre"), ("operator", "is")]
      [TiXmlNode.mk NodeType.TINYXML_TEXT "rock" [] []] "UTF-8" "genre" "is" rfl rfl
      (by decide) (by decide)).2 _ _ rfl).2.1 rfl,
   ((C13_markup_child_shape exampleHost exampleToUtf8 CDatabaseQueryRule.new "rule"
      [("field", "genre"), ("operator", "is")]
      [TiXmlNode.mk NodeType.TINYXML_ELEMENT "value" []
         [TiXmlNode.mk NodeType.TINYXML_TEXT "rock" [] []],
       TiXmlNode.mk NodeType.TINYXML_ELEMENT "value" [] [],
       TiXmlNode.mk NodeType.TINYXML_ELEMENT "value" []
         [TiXmlNode.mk NodeType.TINYXML_TEXT "pop" [] []]] "UTF-8" "genre" "is" rfl rfl
      (by decide) (by decide)).2 _ _ rfl).2.2 rfl⟩

/-- C13 as stated fails: a rule element with operator "is" whose only child is an element
that is not `value` is loaded with success, and no parameter is stored; so is one whose
text child is followed by another element. -/
theorem C13_counterexample :
    CDatabaseQueryRule.LoadXml exampleHost exampleToUtf8 CDatabaseQueryRule.new
      (some (TiXmlNode.mk NodeType.TINYXML_ELEMENT "rule"
        [("field", "genre"), ("operator", "is")]
        [TiXmlNode.mk NodeType.TINYXML_ELEMENT "other" [] []])) "UTF-8"
      = (true, ⟨1, OPERATOR_EQUALS, []⟩) ∧
    CDatabaseQueryRule.LoadXml exampleHost exampleToUtf8 CDatabaseQueryRule.new
      (some (TiXmlNode.mk NodeType.TINYXML_ELEMENT "rule"
        [("field", "genre"), ("operator", "is")]
        [TiXmlNode.mk NodeType.TINYXML_TEXT "rock" [] [],
         TiXmlNode.mk NodeType.TINYXML_ELEMENT "other" [] []])) "UTF-8"
      = (true, ⟨1, OPERATOR_EQUALS, ["rock"]⟩) := by
  decide

/-- C14: Load(structured) of a rule succeeds if and only if the input is an object with
string members field and operator and either the operator translates to TRUE or FALSE,
or the member value is present and is a non-empty string or an array; on success with
another operator the parameters added are the string itself (string value) or the
non-empty string elements of the array in array order (array value). So with another
operator a missing value, a value of another type and an empty string value make Load
fail. -/
theorem C14_rule_load_structured (h : Host) (r : CDatabaseQueryRule) (obj : CVariant) :
    ((CDatabaseQueryRule.Load h r obj).1 = true ↔
      (obj.isObject = true ∧
        obj.isMember "field" = true ∧ (obj.get "field").isString = true ∧
        obj.isMember "operator" = true ∧ (obj.get "operator").isString = true ∧
        ((TranslateOperator (obj.get "operator").asString = OPERATOR_TRUE ∨
          TranslateOperator (obj.get "operator").asString = OPERATOR_FALSE) ∨
         (obj.isMember "value" = true ∧
          (((obj.get "value").isString = true ∧ (obj.get "value").asString ≠ "") ∨
           (obj.get "value").isArray = true))))) ∧
    ((CDatabaseQueryRule.Load h r obj).1 = true →
      TranslateOperator (obj.get "operator").asString ≠ OPERATOR_TRUE →
      TranslateOperator (obj.get "operator").asString ≠ OPERATOR_FALSE →
      ((obj.get "value").isString = true →
        (CDatabaseQueryRule.Load h r obj).2.m_parameter
          = r.m_parameter ++ [(obj.get "value").asString]) ∧
      ((obj.get "value").isArray = true →
        (CDatabaseQueryRule.Load h r obj).2.m_parameter
          = r.m_parameter ++
            ((obj.get "value").elements.filter
              (fun v => v.isString && decide (v.asString ≠ ""))).map CVariant.asString)) := by
  unfold CDatabaseQueryRule.Load
  by_cases h0 : (!obj.isObject ||
      !obj.isMember "field" || !(obj.get "field").isString ||
      !obj.isMember "operator" || !(obj.get "operator").isString) = true
  · rw [if_pos h0]
    simp only [Bool.or_eq_true, Bool.not_eq_true'] at h0
    constructor
    · constructor
      · intro hc; exact absurd hc (by simp)
      · rintro ⟨a1, a2, a3, a4, a5, _⟩
        simp [a1, a2, a3, a4, a5] at h0
    · intro hc; exact absurd hc (by simp)
  · rw [if_neg h0]
    simp only [Bool.or_eq_true, Bool.not_eq_true', not_or, Bool.not_eq_false] at h0
    obtain ⟨⟨⟨⟨a1, a2⟩, a3⟩, a4⟩, a5⟩ := h0
    simp only [a1, a2, a3, a4, a5, true_and]
    by_cases hb : TranslateOperator (obj.get "operator").asString = OPERATOR_TRUE ∨
        TranslateOperator (obj.get "operator").asString = OPERATOR_FALSE
    · rw [if_pos hb]
      constructor
      · simp [hb]
      · intro _ hT hF
        rcases hb with hb | hb
        · exact absurd hb hT
        · exact absurd hb hF
    · rw [if_neg hb]
      simp only [hb, false_or]
      by_cases hv : (!obj.isMember "value" ||
          (!(obj.get "value").isString && !(obj.get "value").isArray)) = true
      · rw [if_pos hv]
        simp only [Bool.or_eq_true, Bool.not_eq_true', Bool.and_eq_true] at hv
        constructor
        · constructor
          · intro hc; exact absurd hc (by simp)
          · rintro ⟨b1, b2⟩
            rcases hv with hv | ⟨hv1, hv2⟩
            · simp [b1] at hv
            · rcases b2 with ⟨b2, _⟩ | b2
              · simp [b2] at hv1
              · simp [b2] at hv2
        · intro hc; exact absurd hc (by simp)
      · rw [if_neg hv]
        simp only [Bool.or_eq_true, Bool.not_eq_true', Bool.and_eq_true, not_or, not_and,
          Bool.not_eq_false] at hv
        obtain ⟨b1, b2⟩ := hv
        simp only [b1, true_and]
        by_cases hs : ((obj.get "value").isString && decide ((obj.get "value").asString ≠ "")) = true
        · rw [if_pos hs]
          simp only [Bool.and_eq_true, decide_eq_true_eq] at hs
          constructor
          · simp [hs.1, hs.2]
          · intro _ _ _
            refine ⟨fun _ => rfl, ?_⟩
            intro harr
            cases hval : obj.get "value" <;> simp [hval, CVariant.isString, CVariant.isArray] at hs harr
        · rw [if_neg hs]
          by_cases harr : (obj.get "value").isArray = true
          · rw [if_pos harr]
            constructor
            · simp [harr]
            · intro _ _ _
              refine ⟨?_, fun _ => Load_loop_filter _ _⟩
              intro hstr
              cases hval : obj.get "value" <;> simp [hval, CVariant.isString, CVariant.isArray] at hstr harr
          · rw [if_neg harr]
            constructor
            · constructor
              · intro hc; exact absurd hc (by simp)
              · rintro (⟨c1, c2⟩ | c1)
                · simp [c1, c2] at hs
                · exact absurd c1 harr
            · intro hc; exact absurd hc (by simp)

/-- C14, at rule objects of the example host with operator "is": an array value with a
number, an empty string and two strings is loaded as ["rock", "pop"]; a missing value and
an empty string value are refused. -/
theorem C14_rule_load_structured_witness :
    (CDatabaseQueryRule.Load exampleHost CDatabaseQueryRule.new (VariantTypeObject
      [("field", VariantTypeString "genre"), ("operator", VariantTypeString "is"),
       ("value", VariantTypeArray [VariantTypeInteger 3, VariantTypeString "rock",
          VariantTypeString "", VariantTypeString "pop"])])).2.m_parameter
      = ["rock", "pop"] ∧
    (CDatabaseQueryRule.Load exampleHost CDatabaseQueryRule.new (VariantTypeObject
      [("field", VariantTypeString "genre"), ("operator", VariantTypeString "is")])).1
      ≠ true ∧
    (CDatabaseQueryRule.Load exampleHost CDatabaseQueryRule.new (VariantTypeObject
      [("field", VariantTypeString "genre"), ("operator", VariantTypeString "is"),
       ("value", VariantTypeString "")])).1 ≠ true :=
  ⟨((C14_rule_load_structured exampleHost CDatabaseQueryRule.new (VariantTypeObject
      [("field", VariantTypeString "genre"), ("operator", VariantTypeString "is"),
       ("value", VariantTypeArray [VariantTypeInteger 3, VariantTypeString "rock",
          VariantTypeString "", VariantTypeString "pop"])])).2 (by decide) (by decide)
        (by decide)).2 rfl,
   fun hs => absurd ((C14_rule_load_structured exampleHost CDatabaseQueryRule.new
      (VariantTypeObject [("field", VariantTypeString "genre"),
        ("operator", VariantTypeString "is")])).1.mp hs) (by decide),
   fun hs => absurd ((C14_rule_load_structured exampleHost CDatabaseQueryRule.new
      (VariantTypeObject [("field", VariantTypeString "genre"),
        ("operator", VariantTypeString "is"), ("value", VariantTypeString "")])).1.mp hs)
      (by decide)⟩

/-- C15 (as amended): every rule obtained by a successful Load, markup form or
structured form, into a freshly constructed rule holds no empty parameter; and a
successful Load with an operator other than TRUE and FALSE leaves at least one parameter
stored when the input supplies a non-empty string: in the structured form a string value
or an array with a non-empty string element, in the markup form a first child that is a
text node with non-empty converted text, or a first child that is an element together
with a child named value whose first child is a text node with non-empty converted
text. -/
theorem C15_loaded_rule_parameters (h : Host) (ToUtf8 : String → String → String) :
    (∀ obj : CVariant, (CDatabaseQueryRule.Load h CDatabaseQueryRule.new obj).1 = true →
      (∀ p ∈ (CDatabaseQueryRule.Load h CDatabaseQueryRule.new obj).2.m_parameter, p ≠ "") ∧
      ((CDatabaseQueryRule.Load h CDatabaseQueryRule.new obj).2.m_operator ≠ OPERATOR_TRUE →
        (CDatabaseQueryRule.Load h CDatabaseQueryRule.new obj).2.m_operator ≠ OPERATOR_FALSE →
        ((obj.get "value").isString = true ∨
          ∃ v ∈ (obj.get "value").elements, v.isString = true ∧ v.asString ≠ "") →
        (CDatabaseQueryRule.Load h CDatabaseQueryRule.new obj).2.m_parameter ≠ [])) ∧
    (∀ (element : TiXmlNode) (encoding : String),
      (CDatabaseQueryRule.LoadXml h ToUtf8 CDatabaseQueryRule.new (some element) encoding).1
        = true →
      (∀ p ∈ (CDatabaseQueryRule.LoadXml h ToUtf8 CDatabaseQueryRule.new (some element)
          encoding).2.m_parameter, p ≠ "") ∧
      ((CDatabaseQueryRule.LoadXml h ToUtf8 CDatabaseQueryRule.new (some element)
          encoding).2.m_operator ≠ OPERATOR_TRUE →
        (CDatabaseQueryRule.LoadXml h ToUtf8 CDatabaseQueryRule.new (some element)
          encoding).2.m_operator ≠ OPERATOR_FALSE →
        ∀ (parameter : TiXmlNode) (rest : List TiXmlNode),
          element.children = parameter :: rest →
          ((parameter.type = NodeType.TINYXML_TEXT ∧
              LoadXml.utf8Parameter ToUtf8 encoding parameter.ValueStr ≠ "") ∨
            (parameter.type = NodeType.TINYXML_ELEMENT ∧
              ∃ vn ∈ element.childrenNamed "value",
                (CDatabaseQueryRule.LoadXml.valueParameter ToUtf8 encoding vn).isSome = true)) →
          (CDatabaseQueryRule.LoadXml h ToUtf8 CDatabaseQueryRule.new (some element)
            encoding).2.m_parameter ≠ [])) := by
  constructor
  · intro obj hs
    obtain ⟨hop, hbool, hother⟩ := Load_new_parameters h obj hs
    constructor
    · intro p hp
      by_cases hb : TranslateOperator (obj.get "operator").asString = OPERATOR_TRUE ∨
          TranslateOperator (obj.get "operator").asString = OPERATOR_FALSE
      · rw [hbool hb] at hp
        exact absurd hp (List.not_mem_nil p)
      · rcases hother hb with ⟨_, hne, hpar⟩ | ⟨_, hpar⟩
        · rw [hpar] at hp
          rw [List.mem_singleton.mp hp]
          exact hne
        · rw [hpar] at hp
          obtain ⟨v, hv, rfl⟩ := List.mem_map.mp hp
          have := (List.mem_filter.mp hv).2
          simp only [Bool.and_eq_true, decide_eq_true_eq] at this
          exact this.2
    · intro hT hF hsup
      rw [hop] at hT hF
      have hb : ¬ (TranslateOperator (obj.get "operator").asString = OPERATOR_TRUE ∨
          TranslateOperator (obj.get "operator").asString = OPERATOR_FALSE) := by
        rintro (hx | hx)
        · exact hT hx
        · exact hF hx
      rcases hother hb with ⟨_, _, hpar⟩ | ⟨harr, hpar⟩
      · rw [hpar]
        exact List.cons_ne_nil _ _
      · rw [hpar]
        rcases hsup with hstr | ⟨v, hv, hv1, hv2⟩
        · cases hval : obj.get "value" <;>
            simp [hval, CVariant.isString, CVariant.isArray] at hstr harr
        · intro hnil
          have hmem : v.asString ∈ ((obj.get "value").elements.filter
              (fun v => v.isString && decide (v.asString ≠ ""))).map CVariant.asString :=
            List.mem_map.mpr ⟨v, List.mem_filter.mpr ⟨hv, by simp [hv1, hv2]⟩, rfl⟩
          rw [hnil] at hmem
          exact absurd hmem (List.not_mem_nil _)
  · intro element encoding hs
    obtain ⟨t, name, attrs, children⟩ := element
    by_cases ht : t = NodeType.TINYXML_ELEMENT
    · subst ht
      cases hfa : TiXmlNode.Attribute "field" attrs with
      | none =>
        simp [CDatabaseQueryRule.LoadXml, TiXmlNode_type_mk, TiXmlNode_attributes_mk, hfa] at hs
      | some fieldAttr =>
        cases hoa : TiXmlNode.Attribute "operator" attrs with
        | none =>
          simp [CDatabaseQueryRule.LoadXml, TiXmlNode_type_mk, TiXmlNode_attributes_mk, hfa,
            hoa] at hs
        | some oper =>
          by_cases hb : TranslateOperator oper = OPERATOR_TRUE ∨
              TranslateOperator oper = OPERATOR_FALSE
          · have hres : CDatabaseQueryRule.LoadXml h ToUtf8 CDatabaseQueryRule.new
                (some (TiXmlNode.mk NodeType.TINYXML_ELEMENT name attrs children)) encoding
                = (true, ⟨h.TranslateField fieldAttr, TranslateOperator oper, []⟩) := by
              simp [CDatabaseQueryRule.LoadXml, TiXmlNode_type_mk, TiXmlNode_attributes_mk,
                hfa, hoa, hb, CDatabaseQueryRule.new]
            rw [hres]
            refine ⟨fun p hp => absurd hp (List.not_mem_nil p), ?_⟩
            intro hT hF
            rcases hb with hb | hb
            · exact absurd hb hT
            · exact absurd hb hF
          · have hT : TranslateOperator oper ≠ OPERATOR_TRUE := fun hx => hb (Or.inl hx)
            have hF : TranslateOperator oper ≠ OPERATOR_FALSE := fun hx => hb (Or.inr hx)
            rw [LoadXml_element h ToUtf8 CDatabaseQueryRule.new name attrs children encoding
              fieldAttr oper hfa hoa hT hF] at hs ⊢
            cases children with
            | nil => exact absurd hs (by simp)
            | cons parameter rest =>
              simp only [TiXmlNode_children_mk, TiXmlNode.childrenNamed]
              by_cases h1 : parameter.type = NodeType.TINYXML_TEXT
              · simp only [h1, if_true, CDatabaseQueryRule.new, List.nil_append]
                constructor
                · intro p hp
                  by_cases hu : LoadXml.utf8Parameter ToUtf8 encoding parameter.ValueStr = ""
                  · simp [hu] at hp
                  · simp only [ne_eq, hu, not_false_eq_true, if_true,
                      List.mem_singleton] at hp
                    rw [hp]; exact hu
                · intro _ _ p0 rest0 hc hsup
                  injection hc with hc1 hc2
                  subst hc1
                  rcases hsup with ⟨_, hu⟩ | ⟨he, _⟩
                  · simp [hu]
                  · rw [h1] at he
                    exact absurd he (by decide)
              · by_cases h2 : parameter.type = NodeType.TINYXML_ELEMENT
                · simp only [h2, reduceCtorEq, if_false, if_true, CDatabaseQueryRule.new,
                    List.nil_append]
                  constructor
                  · intro p hp
                    obtain ⟨vn, _, hvn⟩ := List.mem_filterMap.mp hp
                    exact valueParameter_ne_empty ToUtf8 encoding vn p hvn
                  · intro _ _ p0 rest0 hc hsup
                    rcases hsup with ⟨ht0, _⟩ | ⟨_, vn, hvn, hsome⟩
                    · injection hc with hc1 hc2
                      subst hc1
                      exact absurd ht0 h1
                    · intro hnil
                      obtain ⟨p, hp⟩ := Option.isSome_iff_exists.mp hsome
                      have hmem : p ∈ (List.filter (fun n => decide (n.ValueStr = "value"))
                          (parameter :: rest)).filterMap
                            (CDatabaseQueryRule.LoadXml.valueParameter ToUtf8 encoding) :=
                        List.mem_filterMap.mpr ⟨vn, hvn, hp⟩
                      rw [hnil] at hmem
                      exact absurd hmem (List.not_mem_nil _)
                · simp only [h1, h2, if_false] at hs
                  exact absurd hs (by simp)
    · simp [CDatabaseQueryRule.LoadXml, TiXmlNode_type_mk, ht] at hs

/-- C15, at the rule object with the string value "rock" and at the rule element with one
value child of the example host. -/
theorem C15_loaded_rule_parameters_witness :
    (CDatabaseQueryRule.Load exampleHost CDatabaseQueryRule.new (VariantTypeObject
      [("field", VariantTypeString "genre"), ("operator", VariantTypeString "is"),
       ("value", VariantTypeString "rock")])).2.m_parameter ≠ [] ∧
    (CDatabaseQueryRule.LoadXml exampleHost exampleToUtf8 CDatabaseQueryRule.new
      (some (TiXmlNode.mk NodeType.TINYXML_ELEMENT "rule"
        [("field", "genre"), ("operator", "is")]
        [TiXmlNode.mk NodeType.TINYXML_ELEMENT "value" []
           [TiXmlNode.mk NodeType.TINYXML_TEXT "rock" [] []]])) "UTF-8").2.m_parameter
      ≠ [] :=
  ⟨((C15_loaded_rule_parameters exampleHost exampleToUtf8).1 (VariantTypeObject
      [("field", VariantTypeString "genre"), ("operator", VariantTypeString "is"),
       ("value", VariantTypeString "rock")]) (by decide)).2 (by decide) (by decide)
      (Or.inl rfl),
   ((C15_loaded_rule_parameters exampleHost exampleToUtf8).2
      (TiXmlNode.mk NodeType.TINYXML_ELEMENT "rule"
        [("field", "genre"), ("operator", "is")]
        [TiXmlNode.mk NodeType.TINYXML_ELEMENT "value" []
           [TiXmlNode.mk NodeType.TINYXML_TEXT "rock" [] []]]) "UTF-8" (by decide)).2
      (by decide) (by decide) _ _ rfl
      (Or.inr ⟨rfl, TiXmlNode.mk NodeType.TINYXML_ELEMENT "value" []
        [TiXmlNode.mk NodeType.TINYXML_TEXT "rock" [] []],
        by simp [TiXmlNode.childrenNamed, TiXmlNode.children, TiXmlNode.ValueStr],
        by decide⟩)⟩

/-- C15 as stated fails: Load of the rule object with operator "is" and an empty array as
value succeeds, as does Load of the rule element with operator "is" and a value child
without text, and each leaves a rule with operator EQUALS and no parameter. -/
theorem C15_counterexample :
    CDatabaseQueryRule.Load exampleHost CDatabaseQueryRule.new (VariantTypeObject
      [("field", VariantTypeString "genre"), ("operator", VariantTypeString "is"),
       ("value", VariantTypeArray [])]) = (true, ⟨1, OPERATOR_EQUALS, []⟩) ∧
    CDatabaseQueryRule.LoadXml exampleHost exampleToUtf8 CDatabaseQueryRule.new
      (some (TiXmlNode.mk NodeType.TINYXML_ELEMENT "rule"
        [("field", "genre"), ("operator", "is")]
        [TiXmlNode.mk NodeType.TINYXML_ELEMENT "value" [] []])) "UTF-8"
      = (true, ⟨1, OPERATOR_EQUALS, []⟩) := by
  decide

/-- C16 (as amended): Load of a combination returns success if and only if the input is a
bare array, or an object whose member "and" is present and an array, or an object whose
member "or" is present and an array; every other input makes Load fail and leaves the
combination as it was. The result depends on this shape alone, so no child element
changes it. -/
theorem C16_combination_load_shapes (h : Host) (factory : IDatabaseQueryRuleFactory)
    (obj : CVariant) (c : CDatabaseQueryRuleCombination) :
    ((CDatabaseQueryRuleCombination.Load h factory obj c).1 = true ↔
      (obj.isArray = true ∨
        (obj.isObject = true ∧
          ((obj.isMember "and" = true ∧ (obj.get "and").isArray = true) ∨
           (obj.isMember "or" = true ∧ (obj.get "or").isArray = true))))) ∧
    ((CDatabaseQueryRuleCombination.Load h factory obj c).1 = false →
      (CDatabaseQueryRuleCombination.Load h factory obj c).2 = c) := by
  cases obj with
  | VariantTypeObject m =>
    rw [Load_object_eq]
    constructor
    · constructor
      · intro hs
        right
        refine ⟨rfl, ?_⟩
        by_cases h1 : ((VariantTypeObject m).isMember "and" &&
            ((VariantTypeObject m).get "and").isArray) = true
        · left; simpa using h1
        · rw [if_neg h1] at hs
          by_cases h2 : ((VariantTypeObject m).isMember "or" &&
              ((VariantTypeObject m).get "or").isArray) = true
          · right; simpa using h2
          · rw [if_neg h2] at hs
            exact absurd hs (by simp)
      · rintro (ha | ⟨_, (⟨h1, h2⟩ | ⟨h1, h2⟩)⟩)
        · exact absurd ha (by simp [CVariant.isArray])
        · simp [h1, h2]
        · simp only [h1, h2, Bool.and_self, if_true]
          split <;> rfl
    · intro hf
      split at hf
      · exact absurd hf (by simp)
      · split at hf
        · exact absurd hf (by simp)
        · rename_i h1 h2
          rw [if_neg h1, if_neg h2]
  | VariantTypeArray a =>
    simp [CDatabaseQueryRuleCombination.Load, CVariant.isArray]
  | VariantTypeNull =>
    simp [CDatabaseQueryRuleCombination.Load, CVariant.isArray, CVariant.isObject]
  | VariantTypeInteger i =>
    simp [CDatabaseQueryRuleCombination.Load, CVariant.isArray, CVariant.isObject]
  | VariantTypeBoolean b =>
    simp [CDatabaseQueryRuleCombination.Load, CVariant.isArray, CVariant.isObject]
  | VariantTypeString s =>
    simp [CDatabaseQueryRuleCombination.Load, CVariant.isArray, CVariant.isObject]

/-- C16, at a number, which is refused and leaves the combination as it was, and at an
array whose elements are a number, an object that is no rule, and a sub-combination
object with a non-array member: Load succeeds. -/
theorem C16_combination_load_shapes_witness :
    (CDatabaseQueryRuleCombination.Load exampleHost exampleFactory (VariantTypeInteger 3)
      (CDatabaseQueryRuleCombination.mk CombinationOr [] [⟨1, OPERATOR_EQUALS, ["a"]⟩])).2
      = CDatabaseQueryRuleCombination.mk CombinationOr [] [⟨1, OPERATOR_EQUALS, ["a"]⟩] ∧
    (CDatabaseQueryRuleCombination.Load exampleHost exampleFactory
      (VariantTypeArray [VariantTypeInteger 1, VariantTypeObject [],
        VariantTypeObject [("and", VariantTypeInteger 2)]])
      CDatabaseQueryRuleCombination.new).1 = true :=
  ⟨(C16_combination_load_shapes exampleHost exampleFactory (VariantTypeInteger 3)
      (CDatabaseQueryRuleCombination.mk CombinationOr [] [⟨1, OPERATOR_EQUALS, ["a"]⟩])).2
      (by decide),
   (C16_combination_load_shapes exampleHost exampleFactory
      (VariantTypeArray [VariantTypeInteger 1, VariantTypeObject [],
        VariantTypeObject [("and", VariantTypeInteger 2)]])
      CDatabaseQueryRuleCombination.new).1.mpr (Or.inl rfl)⟩

/-- C16 as stated fails: an object that carries both "and" and "or", each an array, is
loaded with success, as an AND combination of the elements under "and"; and so is an
object whose "and" is not an array and whose "or" is one, as an OR combination. -/
theorem C16_counterexample :
    CDatabaseQueryRuleCombination.Load exampleHost exampleFactory
      (VariantTypeObject
        [("and", VariantTypeArray [VariantTypeObject
          [("field", VariantTypeString "genre"), ("operator", VariantTypeString "is"),
           ("value", VariantTypeString "rock")]]),
         ("or", VariantTypeArray [])])
      CDatabaseQueryRuleCombination.new
      = (true, CDatabaseQueryRuleCombination.mk CombinationAnd []
          [⟨1, OPERATOR_EQUALS, ["rock"]⟩]) ∧
    CDatabaseQueryRuleCombination.Load exampleHost exampleFactory
      (VariantTypeObject [("and", VariantTypeInteger 1), ("or", VariantTypeArray [])])
      CDatabaseQueryRuleCombination.new
      = (true, CDatabaseQueryRuleCombination.mk CombinationOr [] []) :=
  ⟨rfl, rfl⟩

/-- C17, the code at the failing input: Load of a bare array succeeds and leaves the
connective as it was, so a combination that held OR still holds OR afterwards, while the
objects with an array under "and" and under "or" set AND and OR. -/
theorem C17_bare_array_keeps_connective (h : Host) (factory : IDatabaseQueryRuleFactory)
    (a : List CVariant) (c : CDatabaseQueryRuleCombination) :
    ((CDatabaseQueryRuleCombination.Load h factory (VariantTypeArray a) c).1 = true ∧
      (CDatabaseQueryRuleCombination.Load h factory (VariantTypeArray a) c).2.m_type
        = c.m_type) ∧
    (CDatabaseQueryRuleCombination.Load h factory
      (VariantTypeObject [("and", VariantTypeArray a)]) c).2.m_type = CombinationAnd ∧
    (CDatabaseQueryRuleCombination.Load h factory
      (VariantTypeObject [("or", VariantTypeArray a)]) c).2.m_type = CombinationOr ∧
    CDatabaseQueryRuleCombination.Load exampleHost exampleFactory
        (VariantTypeArray [VariantTypeObject
          [("field", VariantTypeString "genre"), ("operator", VariantTypeString "is"),
           ("value", VariantTypeString "rock")]])
        (CDatabaseQueryRuleCombination.mk CombinationOr [] []) =
      (true, CDatabaseQueryRuleCombination.mk CombinationOr []
        [⟨1, OPERATOR_EQUALS, ["rock"]⟩]) := by
  refine ⟨⟨?_, ?_⟩, ?_, ?_, rfl⟩
  · simp [CDatabaseQueryRuleCombination.Load]
  · simp [CDatabaseQueryRuleCombination.Load, Load_loop_m_type]
  · rw [Load_object_eq]
    simp [CVariant.isMember, CVariant.get, CVariant.lookup, CVariant.isArray,
      Load_loop_m_type, m_type_mk]
  · rw [Load_object_eq]
    have e : ("or" = "and") = False := by decide
    simp [CVariant.isMember, CVariant.get, CVariant.lookup, CVariant.isArray,
      Load_loop_m_type, m_type_mk, e]

/-- C18 (as amended): for every rule, Save fails if and only if the parameter list is
empty and the operator is neither TRUE nor FALSE (markup form onto a non-null parent,
structured form onto a non-null value), and on failure the target is unchanged; on
success the markup form appends one `rule` element with the attributes field and
operator and one `value` child per parameter in order, and the structured form, on an
object target, sets field and operator to their tokens and value to an array holding
exactly the parameters in order (a zero-length array when there is none) and leaves the
other members as they were. -/
theorem C18_rule_save_shape (h : Host) (r : CDatabaseQueryRule) :
    (∀ parent : TiXmlNode,
      ((r.m_parameter = [] ∧ r.m_operator ≠ OPERATOR_TRUE ∧ r.m_operator ≠ OPERATOR_FALSE) →
        CDatabaseQueryRule.SaveXml h r (some parent) = (false, some parent)) ∧
      (¬ (r.m_parameter = [] ∧ r.m_operator ≠ OPERATOR_TRUE ∧ r.m_operator ≠ OPERATOR_FALSE) →
        CDatabaseQueryRule.SaveXml h r (some parent) =
          (true, some (TiXmlNode.mk parent.type parent.ValueStr parent.attributes
            (parent.children ++
              [TiXmlNode.mk NodeType.TINYXML_ELEMENT "rule"
                [("field", h.TranslateFieldToString r.m_field),
                 ("operator", TranslateOperatorToString r.m_operator)]
                (r.m_parameter.map (fun v =>
                  TiXmlNode.mk NodeType.TINYXML_ELEMENT "value" []
                    [TiXmlNode.mk NodeType.TINYXML_TEXT v [] []]))]))))) ∧
    (∀ obj : CVariant, obj.isNull = false →
      ((CDatabaseQueryRule.Save h r obj).1 = false ↔
        (r.m_parameter = [] ∧ r.m_operator ≠ OPERATOR_TRUE ∧ r.m_operator ≠ OPERATOR_FALSE)) ∧
      ((CDatabaseQueryRule.Save h r obj).1 = false → (CDatabaseQueryRule.Save h r obj).2 = obj)) ∧
    (∀ m : List (String × CVariant),
      ¬ (r.m_parameter = [] ∧ r.m_operator ≠ OPERATOR_TRUE ∧ r.m_operator ≠ OPERATOR_FALSE) →
      (CDatabaseQueryRule.Save h r (VariantTypeObject m)).2.isObject = true ∧
      (CDatabaseQueryRule.Save h r (VariantTypeObject m)).2.get "field"
        = VariantTypeString (h.TranslateFieldToString r.m_field) ∧
      (CDatabaseQueryRule.Save h r (VariantTypeObject m)).2.get "operator"
        = VariantTypeString (TranslateOperatorToString r.m_operator) ∧
      (CDatabaseQueryRule.Save h r (VariantTypeObject m)).2.get "value"
        = VariantTypeArray (r.m_parameter.map VariantTypeString) ∧
      (∀ k : String, k ≠ "field" → k ≠ "operator" → k ≠ "value" →
        (CDatabaseQueryRule.Save h r (VariantTypeObject m)).2.get k
          = (VariantTypeObject m).get k)) := by
  refine ⟨?_, ?_, ?_⟩
  · intro parent
    rw [SaveXml_rule_some]
    exact ⟨fun hb => if_pos hb, fun hb => if_neg hb⟩
  · intro obj hnull
    unfold CDatabaseQueryRule.Save
    by_cases hb : r.m_parameter = [] ∧ r.m_operator ≠ OPERATOR_TRUE ∧
        r.m_operator ≠ OPERATOR_FALSE
    · simp [hnull, hb]
    · simp [hnull, hb]
  · intro m hs
    rw [Save_object h r m hs]
    have e1 : "field" ≠ "value" := by decide
    have e2 : "field" ≠ "operator" := by decide
    have e3 : "operator" ≠ "value" := by decide
    refine ⟨rfl, ?_, ?_, ?_, ?_⟩
    · simp only [CVariant.get, lookup_assign_ne _ _ _ _ e1, lookup_assign_ne _ _ _ _ e2,
        lookup_assign_self, Option.getD_some]
    · simp only [CVariant.get, lookup_assign_ne _ _ _ _ e3, lookup_assign_self,
        Option.getD_some]
    · simp only [CVariant.get, lookup_assign_self, Option.getD_some]
    · intro k k1 k2 k3
      simp only [CVariant.get, lookup_assign_ne _ _ _ _ k1, lookup_assign_ne _ _ _ _ k2,
        lookup_assign_ne _ _ _ _ k3]

/-- C18, at the rules (genre, EQUALS, []) and (genre, TRUE, []) of the example host. -/
theorem C18_rule_save_shape_witness :
    CDatabaseQueryRule.SaveXml exampleHost ⟨1, OPERATOR_EQUALS, []⟩
        (some (TiXmlNode.mk NodeType.TINYXML_DOCUMENT "" [] []))
      = (false, some (TiXmlNode.mk NodeType.TINYXML_DOCUMENT "" [] [])) ∧
    CDatabaseQueryRule.SaveXml exampleHost ⟨1, OPERATOR_TRUE, []⟩
        (some (TiXmlNode.mk NodeType.TINYXML_DOCUMENT "" [] []))
      = (true, some (TiXmlNode.mk NodeType.TINYXML_DOCUMENT "" []
          [TiXmlNode.mk NodeType.TINYXML_ELEMENT "rule"
            [("field", "genre"), ("operator", "true")] []])) ∧
    (CDatabaseQueryRule.Save exampleHost ⟨1, OPERATOR_EQUALS, []⟩ (VariantTypeObject [])).2
      = VariantTypeObject [] ∧
    (CDatabaseQueryRule.Save exampleHost ⟨1, OPERATOR_TRUE, []⟩ (VariantTypeObject [])).2.get
      "value" = VariantTypeArray [] :=
  ⟨((C18_rule_save_shape exampleHost ⟨1, OPERATOR_EQUALS, []⟩).1
      (TiXmlNode.mk NodeType.TINYXML_DOCUMENT "" [] [])).1 (by decide),
   ((C18_rule_save_shape exampleHost ⟨1, OPERATOR_TRUE, []⟩).1
      (TiXmlNode.mk NodeType.TINYXML_DOCUMENT "" [] [])).2 (by decide),
   ((C18_rule_save_shape exampleHost ⟨1, OPERATOR_EQUALS, []⟩).2.1 (VariantTypeObject [])
      rfl).2 (by decide),
   ((C18_rule_save_shape exampleHost ⟨1, OPERATOR_TRUE, []⟩).2.2 [] (by decide)).2.2.2.1⟩

/-- C18 as stated fails: Save(structured) of the rule (genre, EQUALS, ["a"]) onto a
non-null value that is not an object, here a string, returns success and leaves the
value as it was, without the members field, operator and value. -/
theorem C18_counterexample :
    (VariantTypeString "x").isNull = false ∧
    CDatabaseQueryRule.Save exampleHost ⟨1, OPERATOR_EQUALS, ["a"]⟩ (VariantTypeString "x")
      = (true, VariantTypeString "x") ∧
    (CDatabaseQueryRule.Save exampleHost ⟨1, OPERATOR_EQUALS, ["a"]⟩
      (VariantTypeString "x")).2.isMember "field" = false :=
  ⟨rfl, rfl, rfl⟩

/-- C19 (as amended): for every combination tree in which every combination has at least
one child and every rule either has the operator TRUE or FALSE and no parameter, or
another operator and a non-empty list of non-empty parameters, and whose rule fields the
host translates to a token and back, Save(structured) into an empty object succeeds and
Load of the saved value into a freshly constructed combination, with a factory that
returns freshly constructed rules and combinations, succeeds and gives the same tree. -/
theorem C19_combination_structured_roundtrip (h : Host) (factory : IDatabaseQueryRuleFactory)
    (hfr : factory.CreateRule = some CDatabaseQueryRule.new)
    (hfc : factory.CreateCombination = some CDatabaseQueryRuleCombination.new)
    (c : CDatabaseQueryRuleCombination)
    (hwf : CDatabaseQueryRuleCombination.RoundTrips h c) :
    (CDatabaseQueryRuleCombination.Save h c (VariantTypeObject [])).1 = true ∧
    CDatabaseQueryRuleCombination.Load h factory
      (CDatabaseQueryRuleCombination.Save h c (VariantTypeObject [])).2
      CDatabaseQueryRuleCombination.new = (true, c) := by
  refine ⟨?_, Load_Save_combination h factory hfr hfc c hwf⟩
  obtain ⟨t, cs, rs⟩ := c
  rw [CDatabaseQueryRuleCombination.RoundTrips] at hwf
  rw [Save_combination_object h t cs rs [] hwf.1]

/-- C19, at the tree AND(OR(genre contains "rock", genre is "pop"), rating is "5",
title is true) of the example host. -/
theorem C19_combination_structured_roundtrip_witness :
    (CDatabaseQueryRuleCombination.Save exampleHost
      (CDatabaseQueryRuleCombination.mk CombinationAnd
        [CDatabaseQueryRuleCombination.mk CombinationOr []
          [⟨1, OPERATOR_CONTAINS, ["rock"]⟩, ⟨1, OPERATOR_EQUALS, ["pop"]⟩]]
        [⟨2, OPERATOR_EQUALS, ["5"]⟩, ⟨3, OPERATOR_TRUE, []⟩])
      (VariantTypeObject [])).1 = true ∧
    CDatabaseQueryRuleCombination.Load exampleHost exampleFactory
      (CDatabaseQueryRuleCombination.Save exampleHost
        (CDatabaseQueryRuleCombination.mk CombinationAnd
          [CDatabaseQueryRuleCombination.mk CombinationOr []
            [⟨1, OPERATOR_CONTAINS, ["rock"]⟩, ⟨1, OPERATOR_EQUALS, ["pop"]⟩]]
          [⟨2, OPERATOR_EQUALS, ["5"]⟩, ⟨3, OPERATOR_TRUE, []⟩])
        (VariantTypeObject [])).2
      CDatabaseQueryRuleCombination.new
      = (true, CDatabaseQueryRuleCombination.mk CombinationAnd
          [CDatabaseQueryRuleCombination.mk CombinationOr []
            [⟨1, OPERATOR_CONTAINS, ["rock"]⟩, ⟨1, OPERATOR_EQUALS, ["pop"]⟩]]
          [⟨2, OPERATOR_EQUALS, ["5"]⟩, ⟨3, OPERATOR_TRUE, []⟩]) :=
  C19_combination_structured_roundtrip exampleHost exampleFactory rfl rfl
    (CDatabaseQueryRuleCombination.mk CombinationAnd
      [CDatabaseQueryRuleCombination.mk CombinationOr []
        [⟨1, OPERATOR_CONTAINS, ["rock"]⟩, ⟨1, OPERATOR_EQUALS, ["pop"]⟩]]
      [⟨2, OPERATOR_EQUALS, ["5"]⟩, ⟨3, OPERATOR_TRUE, []⟩])
    (by
      simp only [CDatabaseQueryRuleCombination.RoundTrips,
        CDatabaseQueryRuleCombination.RoundTrips.list, CDatabaseQueryRule.RoundTrips]
      exact ⟨Or.inr (List.cons_ne_nil _ _),
        ⟨⟨Or.inr (List.cons_ne_nil _ _), trivial, by decide⟩, trivial⟩, by decide⟩)

/-- C19 as stated fails three times, each on a tree whose Save into an empty object
succeeds: the empty sub-combination of AND(OR(), genre is "a") is not written, so the
loaded tree has no sub-combination; the rule (genre, TRUE, ["x"]) comes back without its
parameter; and the rule (genre, EQUALS, ["", "a"]) comes back without its empty
parameter. -/
theorem C19_counterexample :
    ((CDatabaseQueryRuleCombination.Save exampleHost
        (CDatabaseQueryRuleCombination.mk CombinationAnd
          [CDatabaseQueryRuleCombination.mk CombinationOr [] []]
          [⟨1, OPERATOR_EQUALS, ["a"]⟩]) (VariantTypeObject [])).1 = true ∧
      CDatabaseQueryRuleCombination.Load exampleHost exampleFactory
        (CDatabaseQueryRuleCombination.Save exampleHost
          (CDatabaseQueryRuleCombination.mk CombinationAnd
            [CDatabaseQueryRuleCombination.mk CombinationOr [] []]
            [⟨1, OPERATOR_EQUALS, ["a"]⟩]) (VariantTypeObject [])).2
        CDatabaseQueryRuleCombination.new
        = (true, CDatabaseQueryRuleCombination.mk CombinationAnd []
            [⟨1, OPERATOR_EQUALS, ["a"]⟩])) ∧
    ((CDatabaseQueryRuleCombination.Save exampleHost
        (CDatabaseQueryRuleCombination.mk CombinationAnd [] [⟨1, OPERATOR_TRUE, ["x"]⟩])
        (VariantTypeObject [])).1 = true ∧
      CDatabaseQueryRuleCombination.Load exampleHost exampleFactory
        (CDatabaseQueryRuleCombination.Save exampleHost
          (CDatabaseQueryRuleCombination.mk CombinationAnd [] [⟨1, OPERATOR_TRUE, ["x"]⟩])
          (VariantTypeObject [])).2
        CDatabaseQueryRuleCombination.new
        = (true, CDatabaseQueryRuleCombination.mk CombinationAnd []
            [⟨1, OPERATOR_TRUE, []⟩])) ∧
    ((CDatabaseQueryRuleCombination.Save exampleHost
        (CDatabaseQueryRuleCombination.mk CombinationAnd []
          [⟨1, OPERATOR_EQUALS, ["", "a"]⟩]) (VariantTypeObject [])).1 = true ∧
      CDatabaseQueryRuleCombination.Load exampleHost exampleFactory
        (CDatabaseQueryRuleCombination.Save exampleHost
          (CDatabaseQueryRuleCombination.mk CombinationAnd []
            [⟨1, OPERATOR_EQUALS, ["", "a"]⟩]) (VariantTypeObject [])).2
        CDatabaseQueryRuleCombination.new
        = (true, CDatabaseQueryRuleCombination.mk CombinationAnd []
            [⟨1, OPERATOR_EQUALS, ["a"]⟩])) :=
  ⟨⟨rfl, rfl⟩, ⟨rfl, rfl⟩, ⟨rfl, rfl⟩⟩

/-- C20: on a text-in-list field GetOperatorString is empty for every operator; on any
other field CONTAINS and DOES_NOT_CONTAIN give " LIKE '%%%s%%'", STARTS_WITH gives
" LIKE '%s%%'", ENDS_WITH gives " LIKE '%%%s'", TRUE gives " = 1", FALSE gives " = 0",
BETWEEN gives the empty string, and EQUALS, DOES_NOT_EQUAL, the three greater-than
operators and the three less-than operators give " = %s", " != %s", " > %s", " < %s" on
a numeric or duration field and " LIKE '%s'", " LIKE '%s'", " > '%s'", " < '%s'"
elsewhere. -/
theorem C20_operator_string_table (h : Host) (r : CDatabaseQueryRule) :
    (h.GetFieldType r.m_field = TEXTIN_FIELD →
      ∀ op : SEARCH_OPERATOR, GetOperatorString h r op = "") ∧
    (h.GetFieldType r.m_field ≠ TEXTIN_FIELD →
      GetOperatorString h r OPERATOR_CONTAINS = " LIKE '%%%s%%'" ∧
      GetOperatorString h r OPERATOR_DOES_NOT_CONTAIN = " LIKE '%%%s%%'" ∧
      GetOperatorString h r OPERATOR_STARTS_WITH = " LIKE '%s%%'" ∧
      GetOperatorString h r OPERATOR_ENDS_WITH = " LIKE '%%%s'" ∧
      GetOperatorString h r OPERATOR_TRUE = " = 1" ∧
      GetOperatorString h r OPERATOR_FALSE = " = 0" ∧
      GetOperatorString h r OPERATOR_BETWEEN = "" ∧
      (h.GetFieldType r.m_field = NUMERIC_FIELD ∨ h.GetFieldType r.m_field = SECONDS_FIELD →
        GetOperatorString h r OPERATOR_EQUALS = " = %s" ∧
        GetOperatorString h r OPERATOR_DOES_NOT_EQUAL = " != %s" ∧
        GetOperatorString h r OPERATOR_AFTER = " > %s" ∧
        GetOperatorString h r OPERATOR_GREATER_THAN = " > %s" ∧
        GetOperatorString h r OPERATOR_IN_THE_LAST = " > %s" ∧
        GetOperatorString h r OPERATOR_BEFORE = " < %s" ∧
        GetOperatorString h r OPERATOR_LESS_THAN = " < %s" ∧
        GetOperatorString h r OPERATOR_NOT_IN_THE_LAST = " < %s") ∧
      (h.GetFieldType r.m_field ≠ NUMERIC_FIELD → h.GetFieldType r.m_field ≠ SECONDS_FIELD →
        GetOperatorString h r OPERATOR_EQUALS = " LIKE '%s'" ∧
        GetOperatorString h r OPERATOR_DOES_NOT_EQUAL = " LIKE '%s'" ∧
        GetOperatorString h r OPERATOR_AFTER = " > '%s'" ∧
        GetOperatorString h r OPERATOR_GREATER_THAN = " > '%s'" ∧
        GetOperatorString h r OPERATOR_IN_THE_LAST = " > '%s'" ∧
        GetOperatorString h r OPERATOR_BEFORE = " < '%s'" ∧
        GetOperatorString h r OPERATOR_LESS_THAN = " < '%s'" ∧
        GetOperatorString h r OPERATOR_NOT_IN_THE_LAST = " < '%s'")) := by
  have e1 : " > " ++ "%s" = " > %s" := by decide
  have e2 : " < " ++ "%s" = " < %s" := by decide
  have e3 : " > " ++ "'%s'" = " > '%s'" := by decide
  have e4 : " < " ++ "'%s'" = " < '%s'" := by decide
  constructor
  · intro ht op
    simp [GetOperatorString, ht]
  · intro ht
    refine ⟨?_, ?_, ?_, ?_, ?_, ?_, ?_, ?_, ?_⟩
    · simp [GetOperatorString, ht]
    · simp [GetOperatorString, ht]
    · simp [GetOperatorString, ht]
    · simp [GetOperatorString, ht]
    · simp [GetOperatorString, ht]
    · simp [GetOperatorString, ht]
    · simp [GetOperatorString, ht]
    · intro hn
      simp only [GetOperatorString, ne_eq, ht, not_false_eq_true, if_true, hn, e1, e2]
      simp
    · intro h1 h2
      simp only [GetOperatorString, ne_eq, ht, not_false_eq_true, if_true, h1, h2, or_self,
        if_false, e3, e4]
      simp

/-- C20, at the numeric field rating and the plain-text field genre of the example host,
and at a host whose every field is text-in-list. -/
theorem C20_operator_string_table_witness :
    GetOperatorString exampleHost ⟨2, OPERATOR_CONTAINS, []⟩ OPERATOR_AFTER = " > %s" ∧
    GetOperatorString exampleHost ⟨1, OPERATOR_CONTAINS, []⟩ OPERATOR_DOES_NOT_EQUAL
      = " LIKE '%s'" ∧
    GetOperatorString { exampleHost with GetFieldType := fun _ => TEXTIN_FIELD }
      ⟨1, OPERATOR_CONTAINS, []⟩ OPERATOR_EQUALS = "" :=
  ⟨(((C20_operator_string_table exampleHost ⟨2, OPERATOR_CONTAINS, []⟩).2
      (by decide)).2.2.2.2.2.2.2.1 (Or.inl rfl)).2.2.1,
   (((C20_operator_string_table exampleHost ⟨1, OPERATOR_CONTAINS, []⟩).2
      (by decide)).2.2.2.2.2.2.2.2 (by decide) (by decide)).2.1,
   (C20_operator_string_table { exampleHost with GetFieldType := fun _ => TEXTIN_FIELD }
      ⟨1, OPERATOR_CONTAINS, []⟩).1 rfl OPERATOR_EQUALS⟩

end DatabaseQuery
